import Mathlib

/-!
Shallow embedding of the VibeLang compiler core (lexer, optimizer, symbolic
verifier, type checker, code generator) translated from the Python sources in
`src/compiler/`, together with theorems settling the frozen claims about it.

Modelling conventions:
* Python `int` is `Int`; Python `float` is modelled as an exact rational `ℚ`
  (the code under scrutiny only ever adds, multiplies, divides and compares
  floats that come from source literals, so the idealisation is noted at every
  theorem whose truth could conceivably depend on rounding);
* Python dictionaries are association lists with overwrite-on-insert,
  first-match lookup (`Dict` below);
* functions whose Python original can raise are `Fueled`-valued, with the
  raised exception as the `error` payload;
* recursive traversals carry an explicit recursion budget (`Nat` fuel,
  strictly decremented at every call) so that every definition is a plain
  structural recursion that the kernel can evaluate; `Fueled.outOfFuel`
  (resp. `Option.none`) marks budget exhaustion and never occurs for a budget
  larger than the input size, except where the Python genuinely diverges
  (which is exactly what claim C5 is about).
-/

namespace VL

/-- Result of running a fueled, possibly-raising computation: either the
budget ran out, or the Python code raised `e`, or it returned `a`. -/
inductive Fueled (ε : Type) (α : Type) where
  | outOfFuel : Fueled ε α
  | error (e : ε) : Fueled ε α
  | ok (a : α) : Fueled ε α
  deriving Repr, DecidableEq

def Fueled.bind {ε α β : Type} : Fueled ε α → (α → Fueled ε β) → Fueled ε β
  | .outOfFuel, _ => .outOfFuel
  | .error e, _ => .error e
  | .ok a, f => f a

instance {ε : Type} : Monad (Fueled ε) where
  pure := Fueled.ok
  bind := Fueled.bind

/-- Association list standing in for a Python `dict`: `set` overwrites in
place (Python dicts keep the original insertion position of an overwritten
key), `get` returns the first match, `contains` is key membership. -/
def Dict (τ : Type) : Type := List (String × τ)

def Dict.empty {τ : Type} : Dict τ := []

def Dict.set {τ : Type} (d : Dict τ) (k : String) (v : τ) : Dict τ :=
  match d with
  | [] => [(k, v)]
  | (k', v') :: rest =>
    if k' == k then (k, v) :: rest else (k', v') :: Dict.set rest k v

def Dict.get {τ : Type} (d : Dict τ) (k : String) : Option τ :=
  match d with
  | [] => none
  | (k', v) :: rest => if k' == k then some v else Dict.get rest k

def Dict.contains {τ : Type} (d : Dict τ) (k : String) : Bool :=
  match d with
  | [] => false
  | (k', _) :: rest => k' == k || Dict.contains rest k

/-- Python `dict.values()` in insertion order. -/
def Dict.values {τ : Type} (d : Dict τ) : List τ := d.map Prod.snd

def Dict.length {τ : Type} (d : Dict τ) : Nat := List.length d

/-! ## AST data model (`src/compiler/parser/ast_nodes.py`)

Every node carries `line` and `column` (the `ASTNode` base class). -/

/-- `Type` hierarchy: PrimitiveType, ArrayType, ResultType, FunctionType,
NamedType. -/
inductive VType where
  | primitiveType (name : String) (line column : Nat)
  | arrayType (elementType : VType) (line column : Nat)
  | resultType (successType errorType : VType) (line column : Nat)
  | functionType (paramTypes : List VType) (returnType : VType) (line column : Nat)
  | namedType (name : String) (typeArgs : List VType) (line column : Nat)
  deriving Repr

/-- `Pattern` hierarchy; `LiteralPattern.value` is a Python
`int | float | str | bool`. -/
inductive LitVal where
  | int (i : Int)
  | float (q : ℚ)
  | str (s : String)
  | bool (b : Bool)
  deriving Repr, DecidableEq

inductive Pattern where
  | constructorPattern (constructor : String) (parameters : List Pattern) (line column : Nat)
  | identifierPattern (name : String) (line column : Nat)
  | literalPattern (value : LitVal) (line column : Nat)
  | wildcardPattern (line column : Nat)
  deriving Repr

mutual

/-- `Expression` hierarchy. Float literals carry an exact rational. -/
inductive Expression where
  | integerLiteral (value : Int) (line column : Nat)
  | floatLiteral (value : ℚ) (line column : Nat)
  | stringLiteral (value : String) (line column : Nat)
  | boolLiteral (value : Bool) (line column : Nat)
  | identifier (name : String) (line column : Nat)
  | binaryOp (left : Expression) (operator : String) (right : Expression) (line column : Nat)
  | unaryOp (operator : String) (operand : Expression) (line column : Nat)
  | functionCall (function : Expression) (arguments : List Expression) (line column : Nat)
  | memberAccess (obj : Expression) (member : String) (line column : Nat)
  | arrayLiteral (elements : List Expression) (line column : Nat)
  | recordLiteral (fields : List (String × Expression)) (line column : Nat)
  | whenExpression (condition : Expression) (thenBlock : Block) (elseBlock : Option Block) (line column : Nat)
  | givenExpression (scrutinee : Expression) (cases : List PatternCase) (line column : Nat)

inductive PatternCase where
  | mk (pattern : Pattern) (expression : Expression) (line column : Nat)

/-- `Block` is a `Statement` in Python (it appears both as a statement and as
a dedicated field type); it is modelled as its own type plus the
`Statement.blockStmt` injection. -/
inductive Block where
  | mk (statements : List Statement) (line column : Nat)

inductive Statement where
  | blockStmt (b : Block)
  | letBinding (name : String) (type_annot : Option VType) (value : Expression) (line column : Nat)
  | assignment (target : String) (value : Expression) (line column : Nat)
  | expressionStatement (expression : Expression) (line column : Nat)

end

/-- `SimpleType`, `SumType` (with its `Variant` list flattened to
name/parameter pairs carrying their positions), `RefinedType`. -/
inductive TypeDefinition where
  | simpleType (name : String) (typeArgs : List VType) (line column : Nat)
  | sumType (variants : List (String × List VType × Nat × Nat)) (line column : Nat)
  | refinedType (baseType : VType) (condition : Expression) (line column : Nat)

structure Parameter where
  name : String
  type_annot : VType
  line : Nat
  column : Nat

structure TypeDeclaration where
  name : String
  typeParams : List String
  definition : TypeDefinition
  invariants : List Expression
  line : Nat
  column : Nat

structure FunctionDeclaration where
  name : String
  parameters : List Parameter
  returnType : VType
  preconditions : List Expression
  postconditions : List Expression
  body : Block
  line : Nat
  column : Nat

inductive Declaration where
  | typeDecl (d : TypeDeclaration)
  | funcDecl (d : FunctionDeclaration)

structure ImportStatement where
  modulePath : String
  line : Nat
  column : Nat

structure Program where
  imports : List ImportStatement
  declarations : List Declaration
  line : Nat
  column : Nat

/-- `expr.line` of the `ASTNode` base class. -/
def Expression.line : Expression → Nat
  | .integerLiteral _ l _ => l
  | .floatLiteral _ l _ => l
  | .stringLiteral _ l _ => l
  | .boolLiteral _ l _ => l
  | .identifier _ l _ => l
  | .binaryOp _ _ _ l _ => l
  | .unaryOp _ _ l _ => l
  | .functionCall _ _ l _ => l
  | .memberAccess _ _ l _ => l
  | .arrayLiteral _ l _ => l
  | .recordLiteral _ l _ => l
  | .whenExpression _ _ _ l _ => l
  | .givenExpression _ _ l _ => l

/-- `expr.column` of the `ASTNode` base class. -/
def Expression.column : Expression → Nat
  | .integerLiteral _ _ c => c
  | .floatLiteral _ _ c => c
  | .stringLiteral _ _ c => c
  | .boolLiteral _ _ c => c
  | .identifier _ _ c => c
  | .binaryOp _ _ _ _ c => c
  | .unaryOp _ _ _ c => c
  | .functionCall _ _ _ c => c
  | .memberAccess _ _ _ c => c
  | .arrayLiteral _ _ c => c
  | .recordLiteral _ _ c => c
  | .whenExpression _ _ _ _ c => c
  | .givenExpression _ _ _ c => c

/-! ## Symbolic verifier (`src/compiler/verifier/verifier.py`) -/

inductive VerificationStatus where
  | proven
  | unproven
  | violated
  deriving Repr, DecidableEq

structure VerificationResult where
  functionName : String
  contractType : String
  status : VerificationStatus
  message : String
  line : Nat
  column : Nat
  deriving Repr, DecidableEq

/-- Known bound for a symbolic variable: `var OP constant`.  The constant is
a Python `int | float`; both are compared purely numerically everywhere the
verifier touches them, so a single exact rational field is faithful. -/
structure SymbolicBound where
  var : String
  op : String
  value : ℚ
  deriving Repr, DecidableEq

/-- A constant produced by `try_eval_constant`: Python `int`, `float` or
`bool`.  Python `bool` is a subtype of `int` (`True == 1`), which the
operations below reproduce. -/
inductive ConstVal where
  | int (i : Int)
  | float (q : ℚ)
  | bool (b : Bool)
  deriving Repr, DecidableEq

/-- Numeric value of a constant (Python compares and mixes `int`, `float`
and `bool` numerically). -/
def ConstVal.toQ : ConstVal → ℚ
  | .int i => (i : ℚ)
  | .float q => q
  | .bool b => if b then 1 else 0

/-- The underlying Python `int` of an `int` or `bool` constant
(`True == 1`, `False == 0`); unused for floats. -/
def ConstVal.toInt : ConstVal → Int
  | .int i => i
  | .float q => q.num
  | .bool b => if b then 1 else 0

def ConstVal.isFloat : ConstVal → Bool
  | .float _ => true
  | _ => false

/-- Python `bool(x)` truthiness. -/
def ConstVal.truthy : ConstVal → Bool
  | .int i => i != 0
  | .float q => q != 0
  | .bool b => b

/-- `SymbolicEvaluator._eval_binary`: evaluate a binary operation on
constant values.  `/` and `%` by (numeric) zero return `None`; an `int`
(or `bool`) division uses Python floor division `//`, a float modulus uses
Python's sign-of-divisor remainder. -/
def eval_binary (left : ConstVal) (op : String) (right : ConstVal) : Option ConstVal :=
  if op == "+" then
    some (if left.isFloat || right.isFloat then .float (left.toQ + right.toQ)
          else .int (left.toInt + right.toInt))
  else if op == "-" then
    some (if left.isFloat || right.isFloat then .float (left.toQ - right.toQ)
          else .int (left.toInt - right.toInt))
  else if op == "*" then
    some (if left.isFloat || right.isFloat then .float (left.toQ * right.toQ)
          else .int (left.toInt * right.toInt))
  else if op == "/" then
    if right.toQ == 0 then none
    else some (if left.isFloat || right.isFloat then .float (left.toQ / right.toQ)
               else .int (Int.fdiv left.toInt right.toInt))
  else if op == "%" then
    if right.toQ == 0 then none
    else some (if left.isFloat || right.isFloat
               then .float (left.toQ - (⌊left.toQ / right.toQ⌋ : ℤ) * right.toQ)
               else .int (Int.fmod left.toInt right.toInt))
  else if op == "==" then some (.bool (left.toQ == right.toQ))
  else if op == "!=" then some (.bool (left.toQ != right.toQ))
  else if op == "<" then some (.bool (decide (left.toQ < right.toQ)))
  else if op == ">" then some (.bool (decide (left.toQ > right.toQ)))
  else if op == "<=" then some (.bool (decide (left.toQ <= right.toQ)))
  else if op == ">=" then some (.bool (decide (left.toQ >= right.toQ)))
  else if op == "&&" then some (if left.truthy then right else left)
  else if op == "||" then some (if left.truthy then left else right)
  else none

/-- `SymbolicEvaluator.try_eval_constant`. -/
def try_eval_constant : Expression → Option ConstVal
  | .integerLiteral v _ _ => some (.int v)
  | .floatLiteral q _ _ => some (.float q)
  | .boolLiteral b _ _ => some (.bool b)
  | .unaryOp op operand _ _ =>
    match try_eval_constant operand with
    | none => none
    | some o =>
      -- `isinstance(operand, (int, float))` holds for ints, floats AND bools
      if op == "-" then
        match o with
        | .int i => some (.int (-i))
        | .float q => some (.float (-q))
        | .bool b => some (.int (-(ConstVal.bool b).toInt))
      else if op == "!" then
        match o with
        | .bool b => some (.bool (!b))
        | _ => none
      else none
  | .binaryOp l op r _ _ =>
    match try_eval_constant l, try_eval_constant r with
    | some a, some b => eval_binary a op b
    | _, _ => none
  | _ => none

/-- `SymbolicEvaluator._structurally_equal`: shallow structural equality —
same node kind with equal identifier name or literal value; every other
kind (and every kind mismatch) is `False`. -/
def structurally_equal : Expression → Expression → Bool
  | .identifier a _ _, .identifier b _ _ => a == b
  | .integerLiteral a _ _, .integerLiteral b _ _ => a == b
  | .floatLiteral a _ _, .floatLiteral b _ _ => a == b
  | .boolLiteral a _ _, .boolLiteral b _ _ => a == b
  | .stringLiteral a _ _, .stringLiteral b _ _ => a == b
  | _, _ => false

/-- `_flip_op`: flip a comparison operator (swap operands). -/
def flip_op (op : String) : Option String :=
  if op == ">=" then some "<="
  else if op == "<=" then some ">="
  else if op == ">" then some "<"
  else if op == "<" then some ">"
  else if op == "==" then some "=="
  else if op == "!=" then some "!="
  else none

/-- `_implies`: does `var known_op known_val` imply `var query_op query_val`?
Tri-valued; translated clause for clause from the implication table. -/
def implies (known_op : String) (known_val : ℚ) (query_op : String) (query_val : ℚ) : Option Bool :=
  if known_op == ">=" && query_op == ">=" then
    if known_val >= query_val then some true else none
  else if known_op == ">=" && query_op == ">" then
    if known_val > query_val then some true else none
  else if known_op == ">" && query_op == ">=" then
    if known_val >= query_val then some true else none
  else if known_op == ">" && query_op == ">" then
    if known_val >= query_val then some true else none
  else if known_op == "<=" && query_op == "<=" then
    if known_val <= query_val then some true else none
  else if known_op == "<=" && query_op == "<" then
    if known_val < query_val then some true else none
  else if known_op == "<" && query_op == "<=" then
    if known_val <= query_val then some true else none
  else if known_op == "<" && query_op == "<" then
    if known_val <= query_val then some true else none
  else if known_op == "==" then
    -- equality is very precise; an unmatched query_op falls through to the
    -- contradiction section, where no `==` row exists, hence `none`
    if query_op == "==" then some (known_val == query_val)
    else if query_op == "!=" then some (known_val != query_val)
    else if query_op == ">=" then some (decide (known_val >= query_val))
    else if query_op == ">" then some (decide (known_val > query_val))
    else if query_op == "<=" then some (decide (known_val <= query_val))
    else if query_op == "<" then some (decide (known_val < query_val))
    else none
  else if known_op == ">=" && query_op == "<" then
    if known_val >= query_val then some false else none
  else if known_op == ">" && query_op == "<=" then
    if known_val >= query_val then some false else none
  else if known_op == "<=" && query_op == ">" then
    if known_val <= query_val then some false else none
  else if known_op == "<" && query_op == ">=" then
    if known_val <= query_val then some false else none
  else none

/-- The assumption scan inside `_check_var_const`: skip bounds on other
variables, return the first decided implication. -/
def scan_assumptions (name : String) (op : String) (const : ℚ) : List SymbolicBound → Option Bool
  | [] => none
  | a :: rest =>
    if a.var == name then
      match implies a.op a.value op const with
      | some r => some r
      | none => scan_assumptions name op const rest
    else scan_assumptions name op const rest

/-- `SymbolicEvaluator._check_var_const`: check `var OP constant` against
the assumptions. -/
def check_var_const (assumptions : List SymbolicBound) (var_expr : Expression) (op : String) (const_expr : Expression) : Option Bool :=
  match var_expr with
  | .identifier name _ _ =>
    match try_eval_constant const_expr with
    | none => none
    | some const => scan_assumptions name op const.toQ assumptions
  | _ => none

/-- `SymbolicEvaluator._check_addend_sign`: the comparison reduced to
`addend OP 0`. -/
def check_addend_sign (assumptions : List SymbolicBound) (addend : Expression) (op : String) : Option Bool :=
  if op == ">=" || op == "<=" || op == ">" || op == "<" then
    -- target_op is `op` itself for these four operators
    let target_op := op
    match try_eval_constant addend with
    | some const =>
      if target_op == ">=" then some (decide (const.toQ >= 0))
      else if target_op == ">" then some (decide (const.toQ > 0))
      else if target_op == "<=" then some (decide (const.toQ <= 0))
      else some (decide (const.toQ < 0))
    | none =>
      match addend with
      | .identifier name _ _ => scan_assumptions name target_op 0 assumptions
      | _ => none
  else none

/-- Second half of `_check_additive_pattern`: `a <= (a + b)` shapes. -/
def check_additive_right (assumptions : List SymbolicBound) (left : Expression) (op : String) (right : Expression) : Option Bool :=
  match right with
  | .binaryOp rl rop rr _ _ =>
    if rop == "+" then
      match flip_op op with
      | some flipped =>
        if structurally_equal rl left then check_addend_sign assumptions rr flipped
        else if structurally_equal rr left then check_addend_sign assumptions rl flipped
        else none
      | none => none
    else none
  | _ => none

/-- `SymbolicEvaluator._check_additive_pattern`: `(a + b) ⊕ a` and
`a ⊕ (a + b)` shapes. -/
def check_additive_pattern (assumptions : List SymbolicBound) (left : Expression) (op : String) (right : Expression) : Option Bool :=
  if op == ">=" || op == ">" || op == "<=" || op == "<" then
    match left with
    | .binaryOp ll lop lr _ _ =>
      if lop == "+" && structurally_equal ll right then check_addend_sign assumptions lr op
      else if lop == "+" && structurally_equal lr right then check_addend_sign assumptions ll op
      else check_additive_right assumptions left op right
    | _ => check_additive_right assumptions left op right
  else none

/-- The part of `_check_comparison` after the reflexivity test. -/
def check_comparison_rest (assumptions : List SymbolicBound) (left : Expression) (op : String) (right : Expression) : Option Bool :=
  match check_var_const assumptions left op right with
  | some r => some r
  | none =>
    match flip_op op with
    | some flipped =>
      match check_var_const assumptions right flipped left with
      | some r => some r
      | none => check_additive_pattern assumptions left op right
    | none => check_additive_pattern assumptions left op right

/-- `SymbolicEvaluator._check_comparison`. -/
def check_comparison (assumptions : List SymbolicBound) (left : Expression) (op : String) (right : Expression) : Option Bool :=
  if op == ">=" || op == ">" || op == "<=" || op == "<" || op == "==" || op == "!=" then
    if structurally_equal left right then
      if op == ">=" || op == "<=" || op == "==" then some true
      else if op == ">" || op == "<" then some false
      else if op == "!=" then some false
      else check_comparison_rest assumptions left op right
    else check_comparison_rest assumptions left op right
  else none

/-- `SymbolicEvaluator.check_truth`: tri-valued truth of a contract
expression under the assumptions. -/
def check_truth (assumptions : List SymbolicBound) (expr : Expression) : Option Bool :=
  match try_eval_constant expr with
  | some const => some const.truthy
  | none =>
    match expr with
    | .boolLiteral b _ _ => some b
    | .binaryOp l op r _ _ =>
      if op == "&&" then
        let lt := check_truth assumptions l
        let rt := check_truth assumptions r
        if lt == some false || rt == some false then some false
        else if lt == some true && rt == some true then some true
        else none
      else if op == "||" then
        let lt := check_truth assumptions l
        let rt := check_truth assumptions r
        if lt == some true || rt == some true then some true
        else if lt == some false && rt == some false then some false
        else none
      else check_comparison assumptions l op r
    | .unaryOp op operand _ _ =>
      if op == "!" then
        match check_truth assumptions operand with
        | none => none
        | some inner => some (!inner)
      else none
    | _ => none

/-- `SymbolicEvaluator._extract_single_bound`: a bound `var OP constant`. -/
def extract_single_bound (left : Expression) (op : String) (right : Expression) : Option SymbolicBound :=
  match left with
  | .identifier name _ _ =>
    match right with
    | .integerLiteral v _ _ => some ⟨name, op, (v : ℚ)⟩
    | .floatLiteral q _ _ => some ⟨name, op, q⟩
    | _ => none
  | _ => none

/-- `SymbolicEvaluator.extract_bounds`: walk `&&`, take both directions of
any comparison `identifier OP literal`. -/
def extract_bounds : Expression → List SymbolicBound
  | .binaryOp l op r _ _ =>
    if op == "&&" then extract_bounds l ++ extract_bounds r
    else if op == ">=" || op == ">" || op == "<=" || op == "<" || op == "==" then
      (match extract_single_bound l op r with
       | some b => [b]
       | none => []) ++
      (match flip_op op with
       | some flipped =>
         match extract_single_bound r flipped l with
         | some b => [b]
         | none => []
       | none => [])
    else []
  | _ => []

/-- `Verifier._check_contract`: one `VerificationResult` per clause. -/
def check_contract (assumptions : List SymbolicBound) (expr : Expression) (name : String) (contract_type : String) : VerificationResult :=
  match check_truth assumptions expr with
  | some true =>
    ⟨name, contract_type, .proven, contract_type.capitalize ++ " is trivially true",
      expr.line, expr.column⟩
  | some false =>
    ⟨name, contract_type, .violated, contract_type.capitalize ++ " is trivially false",
      expr.line, expr.column⟩
  | none =>
    ⟨name, contract_type, .unproven, contract_type.capitalize ++ " could not be statically verified",
      expr.line, expr.column⟩

/-- `Verifier._verify_function`, with the `self.results` accumulator made
explicit: every precondition is checked against a fresh evaluator with no
assumptions; the postconditions are checked under the bounds extracted from
all preconditions. -/
def verify_function (func : FunctionDeclaration) (results : List VerificationResult) : List VerificationResult :=
  let results :=
    func.preconditions.foldl
      (fun acc pre => acc ++ [check_contract [] pre func.name "precondition"]) results
  let assumptions :=
    func.preconditions.foldl (fun acc pre => acc ++ extract_bounds pre) []
  func.postconditions.foldl
    (fun acc post => acc ++ [check_contract assumptions post func.name "postcondition"]) results

/-- The loop of `Verifier._verify_type_invariants`: check each invariant
under the current assumptions, then extend them with its bounds. -/
def verify_invariants_go (name : String) : List Expression → List SymbolicBound → List VerificationResult → List VerificationResult
  | [], _, results => results
  | inv :: rest, assumptions, results =>
    verify_invariants_go name rest (assumptions ++ extract_bounds inv)
      (results ++ [check_contract assumptions inv name "invariant"])

/-- `Verifier._verify_type_invariants`. -/
def verify_type_invariants (td : TypeDeclaration) (results : List VerificationResult) : List VerificationResult :=
  verify_invariants_go td.name td.invariants [] results

/-- `Verifier.verify`: all contracts of a program, in declaration order. -/
def verify (program : Program) : List VerificationResult :=
  program.declarations.foldl
    (fun acc decl =>
      match decl with
      | .funcDecl fd => verify_function fd acc
      | .typeDecl td => verify_type_invariants td acc) []

/-! ## Optimizer (`src/compiler/optimizer/optimizer.py`)

The optimizer counts applied rewrites in `self.optimizations_applied`; the
counter is modelled as explicit `Nat` state.  `_fold_int` evaluates `lv % rv`
with Python's `%`, which raises an uncaught `ZeroDivisionError` when
`rv == 0`; the exception is the `error` outcome. -/

inductive PyExn where
  | zeroDivisionError
  deriving Repr, DecidableEq

/-- The optimizer's effect: the `optimizations_applied` counter plus the
possibility of an uncaught exception (and the recursion budget). -/
abbrev OptM (α : Type) : Type := StateT Nat (Fueled PyExn) α

def OptM.noFuel {α : Type} : OptM α := fun _ => .outOfFuel

/-- `self.optimizations_applied += 1`. -/
def count_optimization : OptM Unit := fun n => .ok ((), n + 1)

/-- `Optimizer._fold_int`.  `lv / rv` is Python true division (exact on the
rationals); `result == int(result)` holds exactly when the quotient is a
whole number, i.e. when its denominator is 1. -/
def fold_int (lv : Int) (op : String) (rv : Int) (line col : Nat) : Fueled PyExn (Option Expression) :=
  if op == "+" then .ok (some (.integerLiteral (lv + rv) line col))
  else if op == "-" then .ok (some (.integerLiteral (lv - rv) line col))
  else if op == "*" then .ok (some (.integerLiteral (lv * rv) line col))
  else if op == "%" then
    -- Python `lv % rv` (sign of the divisor) raises ZeroDivisionError on 0
    if rv == 0 then .error .zeroDivisionError
    else .ok (some (.integerLiteral (Int.fmod lv rv) line col))
  else if op == "/" then
    if rv == 0 then .ok none
    else
      let q : ℚ := (lv : ℚ) / (rv : ℚ)
      if q.den == 1 then .ok (some (.integerLiteral q.num line col))
      else .ok (some (.floatLiteral q line col))
  else if op == "==" then .ok (some (.boolLiteral (lv == rv) line col))
  else if op == "!=" then .ok (some (.boolLiteral (lv != rv) line col))
  else if op == "<" then .ok (some (.boolLiteral (decide (lv < rv)) line col))
  else if op == "<=" then .ok (some (.boolLiteral (decide (lv <= rv)) line col))
  else if op == ">" then .ok (some (.boolLiteral (decide (lv > rv)) line col))
  else if op == ">=" then .ok (some (.boolLiteral (decide (lv >= rv)) line col))
  else .ok none

/-- `Optimizer._fold_float` (floats as exact rationals). -/
def fold_float (lv : ℚ) (op : String) (rv : ℚ) (line col : Nat) : Option Expression :=
  if op == "+" then some (.floatLiteral (lv + rv) line col)
  else if op == "-" then some (.floatLiteral (lv - rv) line col)
  else if op == "*" then some (.floatLiteral (lv * rv) line col)
  else if op == "/" then
    if rv == 0 then none else some (.floatLiteral (lv / rv) line col)
  else if op == "==" then some (.boolLiteral (lv == rv) line col)
  else if op == "!=" then some (.boolLiteral (lv != rv) line col)
  else if op == "<" then some (.boolLiteral (decide (lv < rv)) line col)
  else if op == "<=" then some (.boolLiteral (decide (lv <= rv)) line col)
  else if op == ">" then some (.boolLiteral (decide (lv > rv)) line col)
  else if op == ">=" then some (.boolLiteral (decide (lv >= rv)) line col)
  else none

/-- `Optimizer._fold_bool`. -/
def fold_bool (lv : Bool) (op : String) (rv : Bool) (line col : Nat) : Option Expression :=
  if op == "&&" then some (.boolLiteral (lv && rv) line col)
  else if op == "||" then some (.boolLiteral (lv || rv) line col)
  else if op == "==" then some (.boolLiteral (lv == rv) line col)
  else if op == "!=" then some (.boolLiteral (lv != rv) line col)
  else none

/-- `Optimizer._try_fold_binary`, dispatching on the literal kinds of the
(already optimized) operands. -/
def try_fold_binary (left : Expression) (op : String) (right : Expression) (line col : Nat) : Fueled PyExn (Option Expression) :=
  match left, right with
  | .integerLiteral lv _ _, .integerLiteral rv _ _ => fold_int lv op rv line col
  | .floatLiteral lv _ _, .floatLiteral rv _ _ => .ok (fold_float lv op rv line col)
  | .integerLiteral lv _ _, .floatLiteral rv _ _ => .ok (fold_float (lv : ℚ) op rv line col)
  | .floatLiteral lv _ _, .integerLiteral rv _ _ => .ok (fold_float lv op (rv : ℚ) line col)
  | .stringLiteral lv _ _, .stringLiteral rv _ _ =>
    if op == "+" then .ok (some (.stringLiteral (lv ++ rv) line col)) else .ok none
  | .boolLiteral lv _ _, .boolLiteral rv _ _ => .ok (fold_bool lv op rv line col)
  | _, _ => .ok none

/-- `Optimizer._is_int_literal`. -/
def is_int_literal (expr : Expression) (value : Int) : Bool :=
  match expr with
  | .integerLiteral v _ _ => v == value
  | _ => false

/-- `Optimizer._try_simplify_identity` (`line`/`col` are those of the whole
`BinaryOp`). -/
def try_simplify_identity (left : Expression) (op : String) (right : Expression) (line col : Nat) : Option Expression :=
  let l_zero := is_int_literal left 0
  let r_zero := is_int_literal right 0
  let l_one := is_int_literal left 1
  let r_one := is_int_literal right 1
  if op == "+" && r_zero then some left
  else if op == "+" && l_zero then some right
  else if op == "-" && r_zero then some left
  else if op == "*" && r_one then some left
  else if op == "*" && l_one then some right
  else if op == "*" && r_zero then some (.integerLiteral 0 line col)
  else if op == "*" && l_zero then some (.integerLiteral 0 line col)
  else none

/-- `Optimizer._block_to_expr`: extract the expression of a
single-`ExpressionStatement` block, otherwise keep the block under a
`when true` guard. -/
def block_to_expr (block : Block) (line col : Nat) : Expression :=
  match block with
  | .mk stmts bl bc =>
    match stmts with
    | [.expressionStatement e _ _] => e
    | _ =>
      .whenExpression (.boolLiteral true line col) (.mk stmts bl bc) none line col

mutual

/-- `Optimizer._optimize_expr` (with an explicit, strictly decreasing
recursion budget). -/
def optimize_expr : Nat → Expression → OptM Expression
  | 0, _ => OptM.noFuel
  | fuel + 1, expr =>
    match expr with
    | .binaryOp l op r line col => optimize_binary fuel l op r line col
    | .unaryOp op operand line col => optimize_unary fuel op operand line col
    | .functionCall fn args line col => do
      let args' ← args.mapM (optimize_expr fuel)
      pure (.functionCall fn args' line col)
    | .memberAccess obj member line col => do
      let obj' ← optimize_expr fuel obj
      pure (.memberAccess obj' member line col)
    | .arrayLiteral elems line col => do
      let elems' ← elems.mapM (optimize_expr fuel)
      pure (.arrayLiteral elems' line col)
    | .recordLiteral fields line col => do
      let fields' ← fields.mapM (fun nv => do
        let v' ← optimize_expr fuel nv.2
        pure (nv.1, v'))
      pure (.recordLiteral fields' line col)
    | .whenExpression c tb eb line col => optimize_when fuel c tb eb line col
    | .givenExpression scrut cases line col => do
      let scrut' ← optimize_expr fuel scrut
      let cases' ← cases.mapM (fun pc =>
        match pc with
        | .mk pat pexpr pl pc2 => do
          let pexpr' ← optimize_expr fuel pexpr
          pure (PatternCase.mk pat pexpr' pl pc2))
      pure (.givenExpression scrut' cases' line col)
    -- literals and identifiers pass through
    | e => pure e
termination_by structural fuel _ => fuel

/-- `Optimizer._optimize_binary`: optimize operands, then constant folding,
then identity simplification. -/
def optimize_binary : Nat → Expression → String → Expression → Nat → Nat → OptM Expression
  | 0, _, _, _, _, _ => OptM.noFuel
  | fuel + 1, left, op, right, line, col => do
    let left' ← optimize_expr fuel left
    let right' ← optimize_expr fuel right
    let folded ← (try_fold_binary left' op right' line col : Fueled PyExn (Option Expression))
    match folded with
    | some f => do
      count_optimization
      pure f
    | none =>
      match try_simplify_identity left' op right' line col with
      | some s => do
        count_optimization
        pure s
      | none => pure (.binaryOp left' op right' line col)
termination_by structural fuel _ _ _ _ _ => fuel

/-- `Optimizer._optimize_unary`: constant folding and double negation. -/
def optimize_unary : Nat → String → Expression → Nat → Nat → OptM Expression
  | 0, _, _, _, _ => OptM.noFuel
  | fuel + 1, op, operand, line, col => do
    let operand' ← optimize_expr fuel operand
    if op == "-" then
      match operand' with
      | .integerLiteral v _ _ => do
        count_optimization
        pure (.integerLiteral (-v) line col)
      | .floatLiteral q _ _ => do
        count_optimization
        pure (.floatLiteral (-q) line col)
      | _ => pure (.unaryOp op operand' line col)
    else if op == "!" then
      match operand' with
      | .boolLiteral b _ _ => do
        count_optimization
        pure (.boolLiteral (!b) line col)
      | .unaryOp iop inner il ic =>
        if iop == "!" then do
          count_optimization
          pure inner
        else pure (.unaryOp op (.unaryOp iop inner il ic) line col)
      | _ => pure (.unaryOp op operand' line col)
    else pure (.unaryOp op operand' line col)
termination_by structural fuel _ _ _ _ => fuel

/-- `Optimizer._optimize_when`: dead-code elimination on constant
conditions. -/
def optimize_when : Nat → Expression → Block → Option Block → Nat → Nat → OptM Expression
  | 0, _, _, _, _, _ => OptM.noFuel
  | fuel + 1, cond, thenB, elseB, line, col => do
    let cond' ← optimize_expr fuel cond
    let thenB' ← optimize_block fuel thenB
    let elseB' ← (match elseB with
      | some b => do
        let b' ← optimize_block fuel b
        pure (some b')
      | none => pure none)
    match cond' with
    | .boolLiteral true _ _ => do
      count_optimization
      pure (block_to_expr thenB' line col)
    | .boolLiteral false _ _ => do
      count_optimization
      match elseB' with
      | some b => pure (block_to_expr b line col)
      | none => pure (.integerLiteral 0 line col)
    | c => pure (.whenExpression c thenB' elseB' line col)
termination_by structural fuel _ _ _ _ _ => fuel

/-- `Optimizer._optimize_block` / `_optimize_stmts`. -/
def optimize_block : Nat → Block → OptM Block
  | 0, _ => OptM.noFuel
  | fuel + 1, .mk stmts line col => do
    let stmts' ← stmts.mapM (optimize_stmt fuel)
    pure (.mk stmts' line col)
termination_by structural fuel _ => fuel

/-- `Optimizer._optimize_stmt`. -/
def optimize_stmt : Nat → Statement → OptM Statement
  | 0, _ => OptM.noFuel
  | fuel + 1, stmt =>
    match stmt with
    | .blockStmt b => do
      let b' ← optimize_block fuel b
      pure (.blockStmt b')
    | .letBinding name ann value line col => do
      let v' ← optimize_expr fuel value
      pure (.letBinding name ann v' line col)
    | .assignment target value line col => do
      let v' ← optimize_expr fuel value
      pure (.assignment target v' line col)
    | .expressionStatement e line col => do
      let e' ← optimize_expr fuel e
      pure (.expressionStatement e' line col)
termination_by structural fuel _ => fuel

end

/-- `Optimizer._optimize_declaration`: only function declarations are
rewritten. -/
def optimize_declaration (fuel : Nat) (decl : Declaration) : OptM Declaration :=
  match decl with
  | .funcDecl fd => do
    let pres ← fd.preconditions.mapM (optimize_expr fuel)
    let posts ← fd.postconditions.mapM (optimize_expr fuel)
    let body ← optimize_block fuel fd.body
    pure (.funcDecl { fd with preconditions := pres, postconditions := posts, body := body })
  | d => pure d

/-- `Optimizer.optimize`: `copy.deepcopy` is the identity on the pure tree
value; every declaration is optimized in order. -/
def optimize (fuel : Nat) (program : Program) : OptM Program := do
  let decls ← program.declarations.mapM (optimize_declaration fuel)
  pure { program with declarations := decls }

/-! ## Type checker (`src/compiler/typechecker/typechecker.py`)

The checker accumulates `TypeCheckError`s in `self.errors` and keeps three
tables: `type_env` (name → compact string form), `type_declarations`
(alias-resolution table; only key membership is ever consulted, so it is
modelled as a `Dict Unit`) and `function_signatures` (name → parameter dict
and return-type string).  `_types_compatible` re-resolves aliases through
the declaration table and genuinely diverges on a cyclic table, hence the
recursion budget: `none` means the Python recursion did not return within
the budget. -/

structure TypeCheckError where
  message : String
  line : Nat
  column : Nat
  deriving Repr, DecidableEq

structure TCState where
  type_env : Dict String
  type_declarations : Dict Unit
  function_signatures : Dict (Dict String × String)
  errors : List TypeCheckError

/-- The checker's effect: the mutable `TypeChecker` state, with `none` as
budget exhaustion (i.e. non-termination of the Python original). -/
abbrev TCM (α : Type) : Type := StateT TCState Option α

def TCM.noFuel {α : Type} : TCM α := fun _ => none

/-- `TypeChecker._error`: append a positioned error. -/
def tc_error (message : String) (line column : Nat) : TCM Unit :=
  fun st => some ((), { st with errors := st.errors ++ [⟨message, line, column⟩] })

/-- `_type_to_str`: compact string form of a `Type` node.  (The Python
fallback `return "Unknown"` for foreign objects is unreachable over the
closed node family.) -/
def type_to_str : Nat → VType → Option String
  | 0, _ => none
  | fuel + 1, t =>
    match t with
    | .primitiveType name _ _ => some name
    | .arrayType elem _ _ => do
      let e ← type_to_str fuel elem
      pure ("Array[" ++ e ++ "]")
    | .resultType s e _ _ => do
      let ss ← type_to_str fuel s
      let es ← type_to_str fuel e
      pure ("Result[" ++ ss ++ ", " ++ es ++ "]")
    | .functionType params ret _ _ => do
      let ps ← params.mapM (type_to_str fuel)
      let rs ← type_to_str fuel ret
      pure ("(" ++ String.intercalate ", " ps ++ ") -> " ++ rs)
    | .namedType name args _ _ =>
      if args.isEmpty then some name
      else do
        let strs ← args.mapM (type_to_str fuel)
        pure (name ++ "[" ++ String.intercalate ", " strs ++ "]")

/-- `TypeChecker._resolve_simple_type`. -/
def resolve_simple_type (fuel : Nat) (name : String) (type_args : List VType) : Option String :=
  if type_args.isEmpty then some name
  else do
    let strs ← type_args.mapM (type_to_str fuel)
    pure (name ++ "[" ++ String.intercalate ", " strs ++ "]")

/-- `TypeChecker._types_compatible`: equal strings, either `"Unknown"`,
`Int`-to-`Float` promotion, or alias resolution through the declaration
table (which can loop forever on a cyclic table — the subject of claim C5).
`some false` on an alias branch means "did not return True there, fall
through"; `none` propagates divergence. -/
def types_compatible (fuel : Nat) (st : TCState) (actual expected : String) : Option Bool :=
  match fuel with
  | 0 => none
  | fuel + 1 =>
    if actual == expected then some true
    else if actual == "Unknown" || expected == "Unknown" then some true
    else if actual == "Int" && expected == "Float" then some true
    else
      let viaActual : Option Bool :=
        if st.type_declarations.contains actual then
          match st.type_env.get actual with
          | some resolved =>
            -- Python `if resolved and ...`: an empty string is falsy
            if resolved != "" then types_compatible fuel st resolved expected
            else some false
          | none => some false
        else some false
      match viaActual with
      | none => none
      | some true => some true
      | some false =>
        if st.type_declarations.contains expected then
          match st.type_env.get expected with
          | some resolved =>
            if resolved != "" then
              match types_compatible fuel st actual resolved with
              | none => none
              | some true => some true
              | some false => some false
            else some false
          | none => some false
        else some false

mutual

/-- `TypeChecker.infer_type`. -/
def infer_type : Nat → Expression → Dict String → TCM String
  | 0, _, _ => TCM.noFuel
  | fuel + 1, expr, env =>
    match expr with
    | .integerLiteral _ _ _ => pure "Int"
    | .floatLiteral _ _ _ => pure "Float"
    | .stringLiteral _ _ _ => pure "String"
    | .boolLiteral _ _ _ => pure "Bool"
    | .identifier name line col => do
      match env.get name with
      | some t => pure t
      | none => do
        let st ← get
        match st.function_signatures.get name with
        | some sig => pure sig.2
        | none => do
          tc_error ("Undefined identifier '" ++ name ++ "'") line col
          pure "Unknown"
    | .binaryOp l op r line col => infer_binary_op fuel l op r line col env
    | .unaryOp op operand line col => infer_unary_op fuel op operand line col env
    | .functionCall fn args line col => infer_function_call fuel fn args line col env
    | .memberAccess obj _ _ _ => do
      let _ ← infer_type fuel obj env
      pure "Unknown"
    | .arrayLiteral elems _ _ =>
      match elems with
      | [] => pure "Array[Unknown]"
      | first :: rest => do
        let elem_type ← infer_type fuel first env
        rest.forM (fun elem => do
          let et ← infer_type fuel elem env
          if et != elem_type && et != "Unknown" && elem_type != "Unknown" then
            tc_error ("Array element type mismatch: expected " ++ elem_type ++ ", got " ++ et)
              elem.line elem.column
          else pure ())
        pure ("Array[" ++ elem_type ++ "]")
    | .recordLiteral _ _ _ => pure "Unknown"
    | .whenExpression cond thenB elseB line col => do
      let cond_type ← infer_type fuel cond env
      if cond_type != "Bool" && cond_type != "Unknown" then
        tc_error ("When condition must be Bool, got " ++ cond_type) cond.line cond.column
      else pure ()
      let then_type ← check_block fuel thenB env
      match elseB with
      | some eb => do
        let else_type ← check_block fuel eb env
        if then_type != else_type && then_type != "Unknown" && else_type != "Unknown" then
          tc_error ("When branches have different types: " ++ then_type ++ " vs " ++ else_type)
            line col
        else pure ()
        pure then_type
      | none => pure then_type
    | .givenExpression scrut cases _ _ => do
      let _ ← infer_type fuel scrut env
      let case_types ← cases.mapM (fun c =>
        match c with
        | .mk _ cexpr _ _ => infer_type fuel cexpr env)
      match case_types with
      | t :: _ => pure t
      | [] => pure "Unknown"
termination_by structural fuel _ _ => fuel

/-- `TypeChecker._infer_binary_op`. -/
def infer_binary_op : Nat → Expression → String → Expression → Nat → Nat → Dict String → TCM String
  | 0, _, _, _, _, _, _ => TCM.noFuel
  | fuel + 1, left, op, right, line, col, env => do
    let left_type ← infer_type fuel left env
    let right_type ← infer_type fuel right env
    if op == "+" || op == "-" || op == "*" || op == "/" || op == "%" then
      if left_type == "Unknown" || right_type == "Unknown" then pure "Unknown"
      else if left_type == "Int" && right_type == "Int" then pure "Int"
      else if left_type == "Float" && right_type == "Float" then pure "Float"
      else if (left_type == "Int" && right_type == "Float")
           || (left_type == "Float" && right_type == "Int") then pure "Float"
      else if op == "+" && left_type == "String" && right_type == "String" then pure "String"
      else do
        tc_error ("Cannot apply '" ++ op ++ "' to " ++ left_type ++ " and " ++ right_type) line col
        pure "Unknown"
    else if op == "<" || op == ">" || op == "<=" || op == ">=" then
      if left_type == "Unknown" || right_type == "Unknown" then pure "Bool"
      else if (left_type == "Int" || left_type == "Float")
           && (right_type == "Int" || right_type == "Float") then pure "Bool"
      else do
        tc_error ("Cannot apply '" ++ op ++ "' to " ++ left_type ++ " and " ++ right_type) line col
        pure "Bool"
    else if op == "==" || op == "!=" then pure "Bool"
    else if op == "&&" || op == "||" then do
      if left_type != "Bool" && left_type != "Unknown" then
        tc_error ("Left operand of '" ++ op ++ "' must be Bool, got " ++ left_type) line col
      else pure ()
      if right_type != "Bool" && right_type != "Unknown" then
        tc_error ("Right operand of '" ++ op ++ "' must be Bool, got " ++ right_type) line col
      else pure ()
      pure "Bool"
    else pure "Unknown"
termination_by structural fuel _ _ _ _ _ _ => fuel

/-- `TypeChecker._infer_unary_op`. -/
def infer_unary_op : Nat → String → Expression → Nat → Nat → Dict String → TCM String
  | 0, _, _, _, _, _ => TCM.noFuel
  | fuel + 1, op, operand, line, col, env => do
    let operand_type ← infer_type fuel operand env
    if op == "!" then do
      if operand_type != "Bool" && operand_type != "Unknown" then
        tc_error ("Operand of '!' must be Bool, got " ++ operand_type) line col
      else pure ()
      pure "Bool"
    else if op == "-" then
      if operand_type == "Int" || operand_type == "Float" || operand_type == "Unknown" then
        pure operand_type
      else do
        tc_error ("Operand of unary '-' must be numeric, got " ++ operand_type) line col
        pure "Unknown"
    else pure "Unknown"
termination_by structural fuel _ _ _ _ _ => fuel

/-- `TypeChecker._infer_function_call`, identifier-callee-with-signature
path. -/
def infer_function_call : Nat → Expression → List Expression → Nat → Nat → Dict String → TCM String
  | 0, _, _, _, _, _ => TCM.noFuel
  | fuel + 1, fn, args, line, col, env =>
    match fn with
    | .identifier fname fl fc => do
      let st ← get
      match st.function_signatures.get fname with
      | some sig => do
        let expected_params := sig.1.values
        if args.length != expected_params.length then do
          tc_error ("Function '" ++ fname ++ "' expects " ++ toString expected_params.length
            ++ " arguments, got " ++ toString args.length) line col
          pure sig.2
        else do
          ((args.zip expected_params).enum).forM (fun ie => do
            let arg := ie.2.1
            let expected := ie.2.2
            let arg_type ← infer_type fuel arg env
            if arg_type != "Unknown" then do
              let st2 ← get
              match types_compatible fuel st2 arg_type expected with
              | none => TCM.noFuel
              | some compat =>
                if !compat then
                  tc_error ("Argument " ++ toString (ie.1 + 1) ++ " of '" ++ fname
                    ++ "': expected " ++ expected ++ ", got " ++ arg_type) arg.line arg.column
                else pure ()
            else pure ())
          pure sig.2
      | none => infer_call_fallback fuel (.identifier fname fl fc) args env
    | f => infer_call_fallback fuel f args env
termination_by structural fuel _ _ _ _ _ => fuel

/-- The fallback at the end of `_infer_function_call`: infer everything,
result `"Unknown"`. -/
def infer_call_fallback : Nat → Expression → List Expression → Dict String → TCM String
  | 0, _, _, _ => TCM.noFuel
  | fuel + 1, fn, args, env => do
    let _ ← infer_type fuel fn env
    args.forM (fun a => do
      let _ ← infer_type fuel a env
      pure ())
    pure "Unknown"
termination_by structural fuel _ _ _ => fuel

/-- `TypeChecker._check_block`. -/
def check_block : Nat → Block → Dict String → TCM String
  | 0, _, _ => TCM.noFuel
  | fuel + 1, .mk stmts _ _, env => check_stmts fuel stmts env "Unit"
termination_by structural fuel _ _ => fuel

/-- The statement loop of `_check_block`, threading `local_env` and
`result_type`. -/
def check_stmts : Nat → List Statement → Dict String → String → TCM String
  | 0, _, _, _ => TCM.noFuel
  | _ + 1, [], _, result_type => pure result_type
  | fuel + 1, stmt :: rest, local_env, _ =>
    match stmt with
    | .letBinding name ann value line col => do
      let val_type ← infer_type fuel value local_env
      match ann with
      | some t =>
        match type_to_str fuel t with
        | none => TCM.noFuel
        | some ann_type => do
          (if val_type != "Unknown" then do
            let st ← get
            match types_compatible fuel st val_type ann_type with
            | none => TCM.noFuel
            | some ok =>
              if !ok then
                tc_error ("Let binding '" ++ name ++ "' type " ++ ann_type
                  ++ " does not match value type " ++ val_type) line col
              else pure ()
          else pure ())
          check_stmts fuel rest (local_env.set name ann_type) "Unit"
      | none => check_stmts fuel rest (local_env.set name val_type) "Unit"
    | .assignment target value line col => do
      let val_type ← infer_type fuel value local_env
      (match local_env.get target with
       | some target_type =>
         -- Python `if target_type and ...`: empty string is falsy
         if target_type != "" && val_type != "Unknown" then do
           let st ← get
           match types_compatible fuel st val_type target_type with
           | none => TCM.noFuel
           | some ok =>
             if !ok then
               tc_error ("Cannot assign " ++ val_type ++ " to '" ++ target ++ "' of type "
                 ++ target_type) line col
             else pure ()
         else pure ()
       | none => pure ())
      check_stmts fuel rest local_env "Unit"
    | .expressionStatement e _ _ => do
      let t ← infer_type fuel e local_env
      check_stmts fuel rest local_env t
    | .blockStmt b => do
      let t ← check_block fuel b local_env
      check_stmts fuel rest local_env t
termination_by structural fuel _ _ _ => fuel

end

/-- `TypeChecker.check_type_declaration`: register the declaration, bind the
type environment, validate the invariants (in an environment binding only
`value`). -/
def check_type_declaration (fuel : Nat) (decl : TypeDeclaration) : TCM Unit := do
  modify (fun st => { st with type_declarations := st.type_declarations.set decl.name () })
  (match decl.definition with
   | .simpleType name args _ _ =>
     match resolve_simple_type fuel name args with
     | none => TCM.noFuel
     | some resolved =>
       modify (fun st => { st with type_env := st.type_env.set decl.name resolved })
   | .sumType variants _ _ => do
     modify (fun st => { st with type_env := st.type_env.set decl.name decl.name })
     variants.forM (fun v =>
       modify (fun st => { st with type_env := st.type_env.set v.1 decl.name }))
   | .refinedType base _ _ _ =>
     match type_to_str fuel base with
     | none => TCM.noFuel
     | some b =>
       modify (fun st => { st with type_env := st.type_env.set decl.name b }))
  decl.invariants.forM (fun inv => do
    let st ← get
    let value_ty := match st.type_env.get decl.name with
      | some t => t
      | none => "Unknown"
    let inv_env : Dict String := [("value", value_ty)]
    let inv_type ← infer_type fuel inv inv_env
    if inv_type != "Bool" then
      tc_error ("Invariant must be Bool, got " ++ inv_type) inv.line inv.column
    else pure ())

/-- `TypeChecker.check_function_declaration`. -/
def check_function_declaration (fuel : Nat) (decl : FunctionDeclaration) : TCM Unit := do
  match type_to_str fuel decl.returnType with
  | none => TCM.noFuel
  | some ret_type_str => do
    let param_types ← decl.parameters.foldlM (fun (d : Dict String) p =>
      match type_to_str fuel p.type_annot with
      | none => TCM.noFuel
      | some t => pure (d.set p.name t)) Dict.empty
    modify (fun st => { st with
      function_signatures := st.function_signatures.set decl.name (param_types, ret_type_str),
      type_env := st.type_env.set decl.name ret_type_str })
    let st ← get
    let local_env := param_types.foldl (fun (e : Dict String) kv => e.set kv.1 kv.2) st.type_env
    decl.preconditions.forM (fun pre => do
      let pre_type ← infer_type fuel pre local_env
      if pre_type != "Bool" then
        tc_error ("Precondition must be Bool, got " ++ pre_type) pre.line pre.column
      else pure ())
    let post_env := local_env.set "result" ret_type_str
    decl.postconditions.forM (fun post => do
      let post_type ← infer_type fuel post post_env
      if post_type != "Bool" then
        tc_error ("Postcondition must be Bool, got " ++ post_type) post.line post.column
      else pure ())
    let body_type ← check_block fuel decl.body local_env
    if body_type != "Unknown" && ret_type_str != "Unknown" then do
      let st2 ← get
      match types_compatible fuel st2 body_type ret_type_str with
      | none => TCM.noFuel
      | some compat =>
        if !compat then
          tc_error ("Function '" ++ decl.name ++ "' body type " ++ body_type
            ++ " does not match return type " ++ ret_type_str) decl.line decl.column
        else pure ()
    else pure ()

/-- `TypeChecker.check`: reset the state, check every declaration, return
the accumulated error list (`none` = the Python checker did not terminate
within the budget — and, for the cyclic-alias program of claim C5, does not
terminate for any budget). -/
def check (fuel : Nat) (program : Program) : Option (List TypeCheckError) := do
  let init : TCState := ⟨Dict.empty, Dict.empty, Dict.empty, []⟩
  let (_, st) ← (program.declarations.forM (fun decl =>
    match decl with
    | .typeDecl td => check_type_declaration fuel td
    | .funcDecl fd => check_function_declaration fuel fd)).run init
  pure st.errors

/-! ## Code generator (`src/compiler/codegen/codegen.py`)

Expression lowering is a pure string builder; statement lowering appends to
`self.output_lines` under `self.indent_level`, modelled as explicit
`CGState` passing. -/

/-- `_BINARY_OP_MAP` with the `.get(op, op)` default. -/
def binary_op_map (op : String) : String :=
  if op == "&&" then "and"
  else if op == "||" then "or"
  else if op == "/" then "//"
  else op

/-- `_UNARY_OP_MAP` with the `.get(op, op)` default. -/
def unary_op_map (op : String) : String :=
  if op == "!" then "not "
  else op

/-- Python `repr` of a string, abstracted: always single-quoted, escaping
quote, backslash, newline, tab and carriage return.  (CPython switches the
quote character when the text contains `'`; no claim depends on the exact
spelling of these opaque code strings.) -/
def py_str_repr (s : String) : String :=
  "'" ++ String.join (s.data.map (fun c =>
    if c == '\'' then "\\'"
    else if c == '\\' then "\\\\"
    else if c == '\n' then "\\n"
    else if c == '\t' then "\\t"
    else if c == '\r' then "\\r"
    else String.singleton c)) ++ "'"

/-- Python `repr` of a float, abstracted over the rational idealisation:
whole values print as `N.0` like CPython, other values as an exact
fraction.  (No claim depends on the spelling.) -/
def py_float_repr (q : ℚ) : String :=
  if q.den == 1 then toString q.num ++ ".0"
  else toString q.num ++ "/" ++ toString q.den

/-- Python `repr` of a `LiteralPattern.value`. -/
def py_litval_repr : LitVal → String
  | .int i => toString i
  | .float q => py_float_repr q
  | .str s => py_str_repr s
  | .bool b => if b then "True" else "False"

/-- `CodeGenerator._gen_pattern_condition`. -/
def gen_pattern_condition (var : String) (pattern : Pattern) : String :=
  match pattern with
  | .literalPattern v _ _ => var ++ " == " ++ py_litval_repr v
  | .identifierPattern _ _ _ => "True"
  | .wildcardPattern _ _ => "True"
  | .constructorPattern ctor _ _ _ => "isinstance(" ++ var ++ ", " ++ ctor ++ ")"

mutual

/-- `CodeGenerator._gen_expr` (pure string builder; total over the closed
node family, so the Python `CodeGenError` branch is unreachable). -/
def gen_expr : Nat → Expression → Option String
  | 0, _ => none
  | fuel + 1, expr =>
    match expr with
    | .integerLiteral v _ _ => some (toString v)
    | .floatLiteral q _ _ => some (py_float_repr q)
    | .stringLiteral s _ _ => some (py_str_repr s)
    | .boolLiteral b _ _ => some (if b then "True" else "False")
    | .identifier name _ _ => some name
    | .binaryOp l op r _ _ => do
      let ls ← gen_expr fuel l
      let rs ← gen_expr fuel r
      pure ("(" ++ ls ++ " " ++ binary_op_map op ++ " " ++ rs ++ ")")
    | .unaryOp op operand _ _ => do
      let os ← gen_expr fuel operand
      pure ("(" ++ unary_op_map op ++ os ++ ")")
    | .functionCall fn args _ _ => do
      let fs ← gen_expr fuel fn
      let argss ← args.mapM (gen_expr fuel)
      pure (fs ++ "(" ++ String.intercalate ", " argss ++ ")")
    | .memberAccess obj member _ _ => do
      let os ← gen_expr fuel obj
      pure (os ++ "." ++ member)
    | .arrayLiteral elems _ _ => do
      let es ← elems.mapM (gen_expr fuel)
      pure ("[" ++ String.intercalate ", " es ++ "]")
    | .recordLiteral fields _ _ => do
      let fs ← fields.mapM (fun kv => do
        let vs ← gen_expr fuel kv.2
        pure (py_str_repr kv.1 ++ ": " ++ vs))
      pure ("\x7b" ++ String.intercalate ", " fs ++ "\x7d")
    | .whenExpression c tb eb _ _ => gen_when_expr fuel c tb eb
    | .givenExpression scrut cases _ _ => gen_given_expr fuel scrut cases
termination_by structural fuel _ => fuel

/-- `CodeGenerator._gen_when_expr`: inline conditional expression. -/
def gen_when_expr : Nat → Expression → Block → Option Block → Option String
  | 0, _, _, _ => none
  | fuel + 1, cond, thenB, elseB => do
    let cs ← gen_expr fuel cond
    let ts ← gen_block_return_expr fuel thenB
    match elseB with
    | some eb => do
      let es ← gen_block_return_expr fuel eb
      pure ("(" ++ ts ++ " if " ++ cs ++ " else " ++ es ++ ")")
    | none => pure ("(" ++ ts ++ " if " ++ cs ++ " else None)")
termination_by structural fuel _ _ _ => fuel

/-- `CodeGenerator._gen_block_return_expr`: the expression value of the last
statement of a block, else `None`. -/
def gen_block_return_expr : Nat → Block → Option String
  | 0, _ => none
  | fuel + 1, .mk stmts _ _ =>
    match stmts.getLast? with
    | some (.expressionStatement e _ _) => gen_expr fuel e
    | _ => some "None"
termination_by structural fuel _ => fuel

/-- `CodeGenerator._gen_given_expr`: immediately-invoked helper with chained
conditionals built over the reversed case list. -/
def gen_given_expr : Nat → Expression → List PatternCase → Option String
  | 0, _, _ => none
  | fuel + 1, scrut, cases => do
    let ss ← gen_expr fuel scrut
    let parts ← cases.mapM (fun c =>
      match c with
      | .mk pat cexpr _ _ => do
        let vs ← gen_expr fuel cexpr
        pure (gen_pattern_condition "_vl_scrutinee" pat, vs))
    if parts.isEmpty then pure "None"
    else
      let result := parts.reverse.foldl (fun acc cv =>
        if cv.1 == "True" then cv.2
        else "(" ++ cv.2 ++ " if " ++ cv.1 ++ " else " ++ acc ++ ")") "None"
      pure ("(lambda _vl_scrutinee: " ++ result ++ ")(" ++ ss ++ ")")
termination_by structural fuel _ _ => fuel

end

/-- The state of a `CodeGenerator`: `self.indent_level` and
`self.output_lines`. -/
structure CGState where
  indent_level : Nat
  output_lines : List String
  deriving Repr, DecidableEq

/-- `CodeGenerator._indent`: four spaces per level. -/
def pad (n : Nat) : String := String.join (List.replicate n "    ")

/-- The pure core of `CodeGenerator._emit`: a non-empty line is prefixed
with the indent, an empty line stays empty. -/
def emit_line (k : Nat) (line : String) : String :=
  if line != "" then pad k ++ line else ""

/-- `CodeGenerator._emit`. -/
def cg_emit (line : String) (st : CGState) : CGState :=
  { st with output_lines := st.output_lines ++ [emit_line st.indent_level line] }

mutual

/-- `CodeGenerator._gen_block_body`: emit the statements of a block at the
current indent; an empty block emits `pass`. -/
def gen_block_body : Nat → Block → CGState → Option CGState
  | 0, _, _ => none
  | fuel + 1, .mk stmts _ _, st =>
    if stmts.isEmpty then some (cg_emit "pass" st)
    else gen_stmts_loop fuel stmts st
termination_by structural fuel _ _ => fuel

/-- The `enumerate` loop of `_gen_block_body`: `is_last` holds exactly for
the final statement. -/
def gen_stmts_loop : Nat → List Statement → CGState → Option CGState
  | 0, _, _ => none
  | _ + 1, [], st => some st
  | fuel + 1, stmt :: rest, st => do
    let st' ← gen_statement fuel stmt rest.isEmpty st
    gen_stmts_loop fuel rest st'
termination_by structural fuel _ _ => fuel

/-- `CodeGenerator._gen_statement`: the last `ExpressionStatement` of a body
becomes `result = <expr>` / `return result`. -/
def gen_statement : Nat → Statement → Bool → CGState → Option CGState
  | 0, _, _, _ => none
  | fuel + 1, stmt, is_last, st =>
    match stmt with
    | .letBinding name _ value _ _ => do
      let vs ← gen_expr fuel value
      pure (cg_emit (name ++ " = " ++ vs) st)
    | .assignment target value _ _ => do
      let vs ← gen_expr fuel value
      pure (cg_emit (target ++ " = " ++ vs) st)
    | .expressionStatement e _ _ => do
      let es ← gen_expr fuel e
      if is_last then pure (cg_emit "return result" (cg_emit ("result = " ++ es) st))
      else pure (cg_emit es st)
    | .blockStmt b => gen_block_body fuel b st
termination_by structural fuel _ _ _ => fuel

end

/-- `CodeGenerator._gen_function_declaration`: the `def` line, a comment and
an assert per precondition, the lowered body, a comment and an assert per
postcondition; the body is emitted one level deeper. -/
def gen_function_declaration (fuel : Nat) (node : FunctionDeclaration) (st : CGState) : Option CGState := do
  let params := String.intercalate ", " (node.parameters.map (fun p => p.name))
  let st := cg_emit ("def " ++ node.name ++ "(" ++ params ++ "):") st
  let st := { st with indent_level := st.indent_level + 1 }
  let st ← node.preconditions.foldlM (fun st pre => do
    let pre_code ← gen_expr fuel pre
    let st := cg_emit ("# expect: " ++ pre_code) st
    pure (cg_emit ("assert " ++ pre_code ++ ", \"Precondition failed: " ++ pre_code ++ "\"") st)) st
  let st ← gen_block_body fuel node.body st
  let st ← node.postconditions.foldlM (fun st post => do
    let post_code ← gen_expr fuel post
    let st := cg_emit ("# ensure: " ++ post_code) st
    pure (cg_emit ("assert " ++ post_code ++ ", \"Postcondition failed: " ++ post_code ++ "\"") st)) st
  pure { st with indent_level := st.indent_level - 1 }

/-! Spec-side layout of one lowered function (the refinement target of
claim C9).  These definitions follow the WORDS of spec §4.6 — `def` line,
then per precondition a comment and an assert, then the body (whose last
statement, when an `ExpressionStatement`, lowers to `result = <expr>` and
`return result`, and which is `pass` when empty), then per postcondition a
comment and an assert — phrased as plain list concatenation at a fixed
indent, to be proved equal to the state-threading code above.  They reuse
`gen_expr` for the opaque `<expr>` strings and mirror its recursion
budget. -/

/-- Spec §4.6: the two lines emitted for one `expect` clause — a short
comment and an assert with a `Precondition failed` message. -/
def spec_expect_lines (fuel k : Nat) (e : Expression) : Option (List String) := do
  let code ← gen_expr fuel e
  pure [emit_line k ("# expect: " ++ code),
        emit_line k ("assert " ++ code ++ ", \"Precondition failed: " ++ code ++ "\"")]

/-- Spec §4.6: the two lines emitted for one `ensure` clause — a short
comment and an assert with a `Postcondition failed` message. -/
def spec_ensure_lines (fuel k : Nat) (e : Expression) : Option (List String) := do
  let code ← gen_expr fuel e
  pure [emit_line k ("# ensure: " ++ code),
        emit_line k ("assert " ++ code ++ ", \"Postcondition failed: " ++ code ++ "\"")]

mutual

/-- Spec §4.6 body lowering, as a pure list of lines. -/
def spec_block_lines : Nat → Nat → Block → Option (List String)
  | 0, _, _ => none
  | fuel + 1, k, .mk stmts _ _ =>
    if stmts.isEmpty then some [emit_line k "pass"]
    else spec_stmts_lines fuel k stmts
termination_by structural fuel _ _ => fuel

def spec_stmts_lines : Nat → Nat → List Statement → Option (List String)
  | 0, _, _ => none
  | _ + 1, _, [] => some []
  | fuel + 1, k, stmt :: rest => do
    let first ← spec_stmt_lines fuel k stmt rest.isEmpty
    let more ← spec_stmts_lines fuel k rest
    pure (first ++ more)
termination_by structural fuel _ _ => fuel

/-- One statement's lines; the final `ExpressionStatement` of a body becomes
`result = <expr>` / `return result`. -/
def spec_stmt_lines : Nat → Nat → Statement → Bool → Option (List String)
  | 0, _, _, _ => none
  | fuel + 1, k, stmt, is_last =>
    match stmt with
    | .letBinding name _ value _ _ => do
      let vs ← gen_expr fuel value
      pure [emit_line k (name ++ " = " ++ vs)]
    | .assignment target value _ _ => do
      let vs ← gen_expr fuel value
      pure [emit_line k (target ++ " = " ++ vs)]
    | .expressionStatement e _ _ => do
      let es ← gen_expr fuel e
      if is_last then pure [emit_line k ("result = " ++ es), emit_line k "return result"]
      else pure [emit_line k es]
    | .blockStmt b => spec_block_lines fuel k b
termination_by structural fuel _ _ _ => fuel

end

/-- Spec §4.6: the whole layout of one lowered function declaration at
indent `k`. -/
def spec_function_layout (fuel : Nat) (fd : FunctionDeclaration) (k : Nat) : Option (List String) := do
  let params := String.intercalate ", " (fd.parameters.map (fun p => p.name))
  let pres ← fd.preconditions.mapM (spec_expect_lines fuel (k + 1))
  let body ← spec_block_lines fuel (k + 1) fd.body
  let posts ← fd.postconditions.mapM (spec_ensure_lines fuel (k + 1))
  pure ([emit_line k ("def " ++ fd.name ++ "(" ++ params ++ "):")]
        ++ pres.flatten ++ body ++ posts.flatten)

/-! ## Lexer (`src/compiler/lexer/lexer.py`)

Source text is a `List Char` with explicit `line`/`column` bookkeeping
(`advance` sets `line+1, 1` on a newline, else `column+1`).  Character
classes use Lean's ASCII predicates where Python uses the unicode-aware
`str.isalnum`/`isdigit`/`isalpha` — the difference is irrelevant to every
claim.  The main `while` loop carries one fuel unit per iteration; every
iteration that recurses consumes at least one character, so `tokenize`
never exhausts its `length + 1` budget. -/

inductive TokenType where
  | DEFINE | TYPE | EXPECT | ENSURE | INVARIANT | GIVEN | WHEN | OTHERWISE | IMPORT | EXPORT
  | TRUE | FALSE | SELF | OLD
  | INT | FLOAT | BOOL | STRING | BYTE | UNIT | ARRAY | RESULT
  | IDENTIFIER | INTEGER_LITERAL | FLOAT_LITERAL | STRING_LITERAL
  | PLUS | MINUS | STAR | SLASH | PERCENT | EQ | NEQ | LT | GT | LE | GE
  | AND | OR | NOT | ARROW | PIPE | AMPERSAND | QUESTION
  | LPAREN | RPAREN | LBRACKET | RBRACKET | LBRACE | RBRACE | COMMA | COLON | DOT | ASSIGN | ELLIPSIS
  | INDENT | DEDENT | NEWLINE | EOF | COMMENT
  deriving Repr, DecidableEq

structure Token where
  type : TokenType
  value : String
  line : Nat
  column : Nat
  indentation : Nat
  deriving Repr, DecidableEq

structure LexError where
  message : String
  deriving Repr, DecidableEq

/-- The space-counting part of the line-start loop (`while peek in ' \t'`):
the run of leading `' '`; a `'\t'` next in line is checked by the caller. -/
def count_spaces : List Char → Nat × List Char
  | [] => (0, [])
  | ch :: rest =>
    if ch == ' ' then
      let (n, r) := count_spaces rest
      (n + 1, r)
    else (0, ch :: rest)

/-- The scan inside a multi-line comment: consume until `##`; end of input
is fatal, reported at the opening position. -/
def scan_block_comment (start_line start_column : Nat) : List Char → Nat → Nat → Except LexError (List Char × Nat × Nat)
  | '#' :: '#' :: rest, line, col => .ok (rest, line, col + 2)
  | [], _, _ =>
    .error ⟨"Unclosed multi-line comment starting at line " ++ toString start_line
      ++ ", column " ++ toString start_column⟩
  | c :: rest, line, col =>
    scan_block_comment start_line start_column rest
      (if c == '\n' then line + 1 else line) (if c == '\n' then 1 else col + 1)

/-- The scan of a single-line comment: consume to (not including) the next
newline or to end of input. -/
def skip_single_comment : List Char → Nat → Nat → List Char × Nat × Nat
  | [], line, col => ([], line, col)
  | '\n' :: rest, line, col => ('\n' :: rest, line, col)
  | _ :: rest, line, col => skip_single_comment rest line (col + 1)

/-- `Lexer.skip_comment` (it is only ever called with `peek == '#'`; on any
other input it is the identity, like the Python guard). -/
def skip_comment (rem : List Char) (line col : Nat) : Except LexError (List Char × Nat × Nat) :=
  match rem with
  | '#' :: '#' :: rest => scan_block_comment line col rest line (col + 2)
  | '#' :: rest => .ok (skip_single_comment rest line (col + 1))
  | r => .ok (r, line, col)

/-- Identifier characters: `isalnum` or `'_'`. -/
def is_ident_char (c : Char) : Bool := c.isAlphanum || c == '_'

/-- The keyword table of `read_identifier`. -/
def keyword_lookup (value : String) : TokenType :=
  if value == "define" then .DEFINE
  else if value == "type" then .TYPE
  else if value == "expect" then .EXPECT
  else if value == "ensure" then .ENSURE
  else if value == "invariant" then .INVARIANT
  else if value == "given" then .GIVEN
  else if value == "when" then .WHEN
  else if value == "otherwise" then .OTHERWISE
  else if value == "import" then .IMPORT
  else if value == "export" then .EXPORT
  else if value == "true" then .TRUE
  else if value == "false" then .FALSE
  else if value == "self" then .SELF
  else if value == "old" then .OLD
  else if value == "Int" then .INT
  else if value == "Float" then .FLOAT
  else if value == "Bool" then .BOOL
  else if value == "String" then .STRING
  else if value == "Byte" then .BYTE
  else if value == "Unit" then .UNIT
  else if value == "Array" then .ARRAY
  else if value == "Result" then .RESULT
  else .IDENTIFIER

/-- `Lexer.read_identifier`. -/
def read_identifier (rem : List Char) (line col : Nat) : Token × List Char × Nat :=
  let chars := rem.takeWhile is_ident_char
  let rest := rem.dropWhile is_ident_char
  let value := String.mk chars
  (⟨keyword_lookup value, value, line, col, 0⟩, rest, col + chars.length)

/-- `Lexer.read_number`: digits, and a fractional part only when a digit
follows the dot. -/
def read_number (rem : List Char) (line col : Nat) : Token × List Char × Nat :=
  let digits := rem.takeWhile Char.isDigit
  let rest1 := rem.dropWhile Char.isDigit
  match rest1 with
  | '.' :: d :: rest2 =>
    if d.isDigit then
      let frac := (d :: rest2).takeWhile Char.isDigit
      let rest3 := (d :: rest2).dropWhile Char.isDigit
      (⟨.FLOAT_LITERAL, String.mk (digits ++ ['.'] ++ frac), line, col, 0⟩,
        rest3, col + digits.length + 1 + frac.length)
    else (⟨.INTEGER_LITERAL, String.mk digits, line, col, 0⟩, rest1, col + digits.length)
  | _ => (⟨.INTEGER_LITERAL, String.mk digits, line, col, 0⟩, rest1, col + digits.length)

/-- The escape table of `read_string`, with the `.get(c, c)` default. -/
def escape_map (c : Char) : Char :=
  if c == 'n' then '\n'
  else if c == 't' then '\t'
  else if c == 'r' then '\r'
  else if c == '"' then '"'
  else if c == '\\' then '\\'
  else c

/-- The body loop of `read_string` (after the opening quote): accumulate
until the closing quote; end of input is fatal.  Python's `advance` at end
of input returns `'\0'` without moving, which the escape-at-end branch
reproduces. -/
def read_string_loop (start_line start_column : Nat) (value : String) : List Char → Nat → Nat → Except LexError (String × List Char × Nat × Nat)
  | [], _, _ =>
    .error ⟨"Unclosed string literal starting at line " ++ toString start_line
      ++ ", column " ++ toString start_column⟩
  | '"' :: rest, line, col => .ok (value, rest, line, col + 1)
  | '\\' :: rest, line, col =>
    match rest with
    | [] => read_string_loop start_line start_column (value.push '\x00') [] line (col + 1)
    | e :: rest2 =>
      read_string_loop start_line start_column (value.push (escape_map e)) rest2
        (if e == '\n' then line + 1 else line) (if e == '\n' then 1 else col + 2)
  | c :: rest, line, col =>
    read_string_loop start_line start_column (value.push c) rest
      (if c == '\n' then line + 1 else line) (if c == '\n' then 1 else col + 1)

/-- `Lexer.read_string`: skip the opening quote, run the body loop. -/
def read_string (rem : List Char) (line col : Nat) : Except LexError (Token × List Char × Nat × Nat) :=
  match rem with
  | _ :: rest => do
    let (value, rest2, line2, col2) ← read_string_loop line col "" rest line (col + 1)
    pure (⟨.STRING_LITERAL, value, line, col, 0⟩, rest2, line2, col2)
  | [] => do
    let (value, rest2, line2, col2) ← read_string_loop line col "" [] line col
    pure (⟨.STRING_LITERAL, value, line, col, 0⟩, rest2, line2, col2)

/-- The single-character token table of `read_operator_or_symbol`. -/
def single_char_token (c : Char) : Option TokenType :=
  if c == '+' then some .PLUS
  else if c == '-' then some .MINUS
  else if c == '*' then some .STAR
  else if c == '/' then some .SLASH
  else if c == '%' then some .PERCENT
  else if c == '<' then some .LT
  else if c == '>' then some .GT
  else if c == '!' then some .NOT
  else if c == '|' then some .PIPE
  else if c == '&' then some .AMPERSAND
  else if c == '?' then some .QUESTION
  else if c == '(' then some .LPAREN
  else if c == ')' then some .RPAREN
  else if c == '[' then some .LBRACKET
  else if c == ']' then some .RBRACKET
  else if c == '{' then some .LBRACE
  else if c == '}' then some .RBRACE
  else if c == ',' then some .COMMA
  else if c == ':' then some .COLON
  else if c == '.' then some .DOT
  else if c == '=' then some .ASSIGN
  else none

/-- `Lexer.read_operator_or_symbol`: three-, two-, then one-character
operators. -/
def read_operator_or_symbol (rem : List Char) (line col : Nat) : Option (Token × List Char × Nat) :=
  match rem with
  | '.' :: '.' :: '.' :: rest => some (⟨.ELLIPSIS, "...", line, col, 0⟩, rest, col + 3)
  | '-' :: '>' :: rest => some (⟨.ARROW, "->", line, col, 0⟩, rest, col + 2)
  | '=' :: '=' :: rest => some (⟨.EQ, "==", line, col, 0⟩, rest, col + 2)
  | '!' :: '=' :: rest => some (⟨.NEQ, "!=", line, col, 0⟩, rest, col + 2)
  | '<' :: '=' :: rest => some (⟨.LE, "<=", line, col, 0⟩, rest, col + 2)
  | '>' :: '=' :: rest => some (⟨.GE, ">=", line, col, 0⟩, rest, col + 2)
  | '&' :: '&' :: rest => some (⟨.AND, "&&", line, col, 0⟩, rest, col + 2)
  | '|' :: '|' :: rest => some (⟨.OR, "||", line, col, 0⟩, rest, col + 2)
  | c :: rest =>
    match single_char_token c with
    | some t => some (⟨t, String.singleton c, line, col, 0⟩, rest, col + 1)
    | none => none
  | [] => none

/-- `Lexer.skip_whitespace`: spaces and tabs, not newlines. -/
def skip_ws : List Char → Nat → List Char × Nat
  | ' ' :: rest, col => skip_ws rest (col + 1)
  | '\t' :: rest, col => skip_ws rest (col + 1)
  | rest, col => (rest, col)

/-- The DEDENT-popping loop of `handle_indentation`; the stack's head is its
top. -/
def pop_dedents (indent_level line : Nat) : List Nat → List Nat × List Token
  | [] => ([], [])
  | top :: below =>
    if top > indent_level then
      let (stack', toks) := pop_dedents indent_level line below
      (stack', Token.mk .DEDENT "" line 1 indent_level :: toks)
    else (top :: below, [])

/-- `Lexer.handle_indentation`: push + INDENT above the top, pop + DEDENTs
below it; a level not on the stack after popping is fatal.  (The stack
always holds the initial 0, so the empty cases are unreachable.) -/
def handle_indentation (stack : List Nat) (indent_level line : Nat) : Except LexError (List Nat × List Token) :=
  match stack with
  | [] => .ok ([], [])
  | top :: _ =>
    if indent_level > top then
      .ok (indent_level :: stack, [⟨.INDENT, "", line, 1, indent_level⟩])
    else if indent_level < top then
      let (stack', toks) := pop_dedents indent_level line stack
      match stack' with
      | top' :: _ =>
        if top' != indent_level then
          .error ⟨"Inconsistent indentation at line " ++ toString line⟩
        else .ok (stack', toks)
      | [] => .error ⟨"Inconsistent indentation at line " ++ toString line⟩
    else .ok (stack, [])

/-- The trailing-DEDENT loop after the main loop (`while len(stack) > 1`). -/
def final_dedents (line : Nat) : List Nat → List Token
  | [] => []
  | [_] => []
  | _ :: rest => Token.mk .DEDENT "" line 1 0 :: final_dedents line rest

/-- The main loop of `Lexer.tokenize`: one fuel unit per iteration of the
Python `while` loop.  At a line start: count spaces (tabs fatal), skip
blank/comment-only lines, reject odd space counts, emit INDENT/DEDENTs;
then the shared per-character dispatch of the iteration. -/
def tokenize_loop : Nat → List Char → Nat → Nat → List Nat → Bool → List Token → Fueled LexError (List Token)
  | 0, _, _, _, _, _, _ => .outOfFuel
  | fuel + 1, rem, line, col, stack, at_line_start, toks =>
    let mainStep : List Char → Nat → Nat → List Nat → List Token → Fueled LexError (List Token) :=
      fun rem1 line1 col1 stack1 toks1 =>
        let (rem2, col2) := skip_ws rem1 col1
        match rem2 with
        | [] =>
          -- `char == '\0'` → break, then remaining dedents and EOF
          .ok (toks1 ++ final_dedents line1 stack1 ++ [⟨.EOF, "", line1, col2, 0⟩])
        | '#' :: _ =>
          match skip_comment rem2 line1 col2 with
          | .error e => .error e
          | .ok (rem3, line3, col3) => tokenize_loop fuel rem3 line3 col3 stack1 false toks1
        | '\n' :: rest =>
          tokenize_loop fuel rest (line1 + 1) 1 stack1 true
            (toks1 ++ [⟨.NEWLINE, "\\n", line1, col2, 0⟩])
        | c :: _ =>
          if c.isAlpha || c == '_' then
            let (tok, rem3, col3) := read_identifier rem2 line1 col2
            tokenize_loop fuel rem3 line1 col3 stack1 false (toks1 ++ [tok])
          else if c.isDigit then
            let (tok, rem3, col3) := read_number rem2 line1 col2
            tokenize_loop fuel rem3 line1 col3 stack1 false (toks1 ++ [tok])
          else if c == '"' then
            match read_string rem2 line1 col2 with
            | .error e => .error e
            | .ok (tok, rem3, line3, col3) =>
              tokenize_loop fuel rem3 line3 col3 stack1 false (toks1 ++ [tok])
          else
            match read_operator_or_symbol rem2 line1 col2 with
            | some (tok, rem3, col3) =>
              tokenize_loop fuel rem3 line1 col3 stack1 false (toks1 ++ [tok])
            | none =>
              .error ⟨"Unexpected character '" ++ String.singleton c ++ "' at line "
                ++ toString line1 ++ ", column " ++ toString col2⟩
    match rem with
    | [] => .ok (toks ++ final_dedents line stack ++ [⟨.EOF, "", line, col, 0⟩])
    | _ :: _ =>
      if at_line_start then
        let (n, rem1) := count_spaces rem
        let col1 := col + n
        match rem1 with
        | '\t' :: _ => .error ⟨"Tabs are not allowed, use 2 spaces for indentation"⟩
        | '#' :: _ =>
          -- blank line: skip the comment, then one newline if present
          (match skip_comment rem1 line col1 with
           | .error e => .error e
           | .ok (rem2, line2, col2) =>
             match rem2 with
             | '\n' :: rest => tokenize_loop fuel rest (line2 + 1) 1 stack true toks
             | r => tokenize_loop fuel r line2 col2 stack true toks)
        | '\n' :: rest => tokenize_loop fuel rest (line + 1) 1 stack true toks
        | rem1' =>
          if n % 2 != 0 then
            .error ⟨"Indentation must be multiple of 2 spaces at line " ++ toString line⟩
          else
            match handle_indentation stack (n / 2) line with
            | .error e => .error e
            | .ok (stack', newToks) => mainStep rem1' line col1 stack' (toks ++ newToks)
      else mainStep rem line col stack toks
termination_by structural fuel _ _ _ _ _ _ => fuel

/-- `Lexer.tokenize` on a source string: position 1:1, indent stack `[0]`,
line-start mode.  The budget `length + 1` cannot run out, since every
recursing iteration consumes at least one character. -/
def tokenize (source : String) : Fueled LexError (List Token) :=
  tokenize_loop (source.length + 1) source.data 1 1 [0] true []

/-! ## Concrete programs used by the counterexamples and witnesses -/

/-- The contract expression `x > y` (line 2, column 12). -/
def xgty : Expression :=
  .binaryOp (.identifier "x" 2 10) ">" (.identifier "y" 2 14) 2 12

/-- A function whose postcondition is literally the same AST as its
precondition `x > y` (structurally identical), yet is not of the
`identifier OP literal` shape the bound extractor handles. -/
def fdC1 : FunctionDeclaration :=
  ⟨"f", [], .primitiveType "Int" 1 20, [xgty], [xgty], .mk [] 4 3, 1, 1⟩

def progC1 : Program := ⟨[], [.funcDecl fdC1], 0, 0⟩

/-- The compound expression `a + b` (line 2). -/
def aplusb : Expression :=
  .binaryOp (.identifier "a" 2 10) "+" (.identifier "b" 2 14) 2 12

/-- A function whose precondition `(a + b) != (a + b)` has the same
expression on both sides of the comparison. -/
def fdC2 : FunctionDeclaration :=
  ⟨"g", [], .primitiveType "Int" 1 20, [.binaryOp aplusb "!=" aplusb 2 13], [], .mk [] 3 3, 1, 1⟩

def progC2 : Program := ⟨[], [.funcDecl fdC2], 0, 0⟩

/-- `type A = A` — a cyclic type alias, binding `A → "A"` in the type
environment. -/
def declA : TypeDeclaration := ⟨"A", [], .simpleType "A" [] 1 10, [], 1, 1⟩

/-- `define f() -> Int` whose body's last expression is the identifier `A`
(of type `"A"`), forcing `_types_compatible("A", "Int")`. -/
def declF : FunctionDeclaration :=
  ⟨"f", [], .primitiveType "Int" 2 15, [], [],
    .mk [.expressionStatement (.identifier "A" 4 3) 4 3] 4 3, 2, 1⟩

/-- The cyclic-alias program of claim C5. -/
def progC5 : Program := ⟨[], [.typeDecl declA, .funcDecl declF], 1, 1⟩

/-- The `TypeChecker` state right before the body-compatibility check when
checking `progC5` (with any budget that reaches that point). -/
def stC5 : TCState :=
  ⟨[("A", "A"), ("f", "Int")], [("A", ())], [("f", ([], "Int"))], []⟩

/-- Witness function for the amended C1: precondition and postcondition are
both `x >= 5`. -/
def fdW1 : FunctionDeclaration :=
  ⟨"h", [], .primitiveType "Int" 1 20,
    [.binaryOp (.identifier "x" 2 10) ">=" (.integerLiteral 5 2 15) 2 12],
    [.binaryOp (.identifier "x" 3 10) ">=" (.integerLiteral 5 3 15) 3 12],
    .mk [] 4 3, 1, 1⟩

/-! ## Theorems

Shared helper lemmas first, then one theorem per claim (with a witness
where the theorem carries hypotheses, and a counterexample where the claim
as frozen fails on the code). -/

theorem foldl_append_flatMap {α β : Type} (g : α → List β) :
    ∀ (l : List α) (acc : List β),
      l.foldl (fun acc x => acc ++ g x) acc = acc ++ l.flatMap g := by
  intro l
  induction l with
  | nil => simp
  | cons x xs ih => intro acc; simp [ih]

theorem flatMap_singleton_map {α β : Type} (f : α → β) (l : List α) :
    l.flatMap (fun x => [f x]) = l.map f := by
  induction l with
  | nil => rfl
  | cons x xs ih => simp [ih]

/-- Functional characterisation of `verify_function`: preconditions are
checked against the empty assumption list, postconditions under the bounds
extracted (in order) from all preconditions. -/
theorem verify_function_eq (func : FunctionDeclaration) (acc : List VerificationResult) :
    verify_function func acc =
      acc
      ++ func.preconditions.map (fun pre => check_contract [] pre func.name "precondition")
      ++ func.postconditions.map (fun post =>
           check_contract (func.preconditions.flatMap extract_bounds) post func.name
             "postcondition") := by
  simp only [verify_function, foldl_append_flatMap, flatMap_singleton_map, List.append_assoc,
    List.nil_append]

theorem verify_invariants_go_prefix (name : String) :
    ∀ (invs : List Expression) (as : List SymbolicBound) (acc : List VerificationResult),
      ∃ tail, verify_invariants_go name invs as acc = acc ++ tail := by
  intro invs
  induction invs with
  | nil => intro as acc; exact ⟨[], by simp [verify_invariants_go]⟩
  | cons inv rest ih =>
    intro as acc
    obtain ⟨tail, htail⟩ := ih (as ++ extract_bounds inv)
      (acc ++ [check_contract as inv name "invariant"])
    exact ⟨check_contract as inv name "invariant" :: tail, by
      simp [verify_invariants_go, htail]⟩

/-- The invariant checked at position `invs1.length` sees exactly the bounds
of the invariants before it. -/
theorem verify_invariants_go_get (name : String) (inv : Expression) (invs2 : List Expression) :
    ∀ (invs1 : List Expression) (as : List SymbolicBound) (acc : List VerificationResult),
      (verify_invariants_go name (invs1 ++ inv :: invs2) as acc)[acc.length + invs1.length]? =
        some (check_contract (as ++ invs1.flatMap extract_bounds) inv name "invariant") := by
  intro invs1
  induction invs1 with
  | nil =>
    intro as acc
    obtain ⟨tail, htail⟩ := verify_invariants_go_prefix name invs2
      (as ++ extract_bounds inv) (acc ++ [check_contract as inv name "invariant"])
    simp only [List.nil_append, verify_invariants_go, htail, List.append_assoc]
    rw [List.getElem?_append_right (by simp)]
    simp
  | cons x rest ih =>
    intro as acc
    simp only [List.cons_append, verify_invariants_go, List.append_eq]
    have hidx : acc.length + (x :: rest).length =
        (acc ++ [check_contract as x name "invariant"]).length + rest.length := by
      simp; omega
    rw [hidx, ih (as ++ extract_bounds x) (acc ++ [check_contract as x name "invariant"])]
    simp [List.flatMap_cons, List.append_assoc]

/-- C7. The verifier evaluates every precondition of a function against an
empty assumption set and every postcondition under the bounds extracted
from all of that function's preconditions; and it evaluates a type
declaration's invariants in source order, each under exactly the bounds of
the invariants before it (so no precondition sees bounds from another
precondition, while later invariants see all earlier ones). -/
theorem c7_assumption_discipline (func : FunctionDeclaration) (td : TypeDeclaration)
    (acc : List VerificationResult) (invs1 invs2 : List Expression) (inv : Expression)
    (hinv : td.invariants = invs1 ++ inv :: invs2) :
    verify_function func acc =
      acc
      ++ func.preconditions.map (fun pre => check_contract [] pre func.name "precondition")
      ++ func.postconditions.map (fun post =>
           check_contract (func.preconditions.flatMap extract_bounds) post func.name
             "postcondition")
    ∧ (verify_type_invariants td acc)[acc.length + invs1.length]? =
        some (check_contract (invs1.flatMap extract_bounds) inv td.name "invariant") := by
  constructor
  · exact verify_function_eq func acc
  · unfold verify_type_invariants
    rw [hinv]
    simpa using verify_invariants_go_get td.name inv invs2 invs1 [] acc

/-- Witness for C7 at a concrete declaration pair: one function with one
precondition `x >= 1` and one postcondition `x >= 1`, and one type
declaration with invariants `[value >= 0, value <= 9]`, the second checked
under the bounds of the first. -/
theorem c7_assumption_discipline_witness :
    verify_function ⟨"w", [], .primitiveType "Int" 1 1,
        [.binaryOp (.identifier "x" 2 10) ">=" (.integerLiteral 1 2 15) 2 12],
        [.binaryOp (.identifier "x" 3 10) ">=" (.integerLiteral 1 3 15) 3 12],
        .mk [] 4 3, 1, 1⟩ [] =
      [check_contract [] (.binaryOp (.identifier "x" 2 10) ">=" (.integerLiteral 1 2 15) 2 12)
         "w" "precondition",
       check_contract [⟨"x", ">=", 1⟩]
         (.binaryOp (.identifier "x" 3 10) ">=" (.integerLiteral 1 3 15) 3 12)
         "w" "postcondition"]
    ∧ (verify_type_invariants ⟨"T", [], .simpleType "Int" [] 1 10,
        [.binaryOp (.identifier "value" 2 3) ">=" (.integerLiteral 0 2 9) 2 5,
         .binaryOp (.identifier "value" 3 3) "<=" (.integerLiteral 9 3 9) 3 5], 1, 1⟩ [])[0 + 1]? =
      some (check_contract [⟨"value", ">=", 0⟩]
        (.binaryOp (.identifier "value" 3 3) "<=" (.integerLiteral 9 3 9) 3 5) "T"
        "invariant") := by
  have h := c7_assumption_discipline
    ⟨"w", [], .primitiveType "Int" 1 1,
      [.binaryOp (.identifier "x" 2 10) ">=" (.integerLiteral 1 2 15) 2 12],
      [.binaryOp (.identifier "x" 3 10) ">=" (.integerLiteral 1 3 15) 3 12],
      .mk [] 4 3, 1, 1⟩
    ⟨"T", [], .simpleType "Int" [] 1 10,
      [.binaryOp (.identifier "value" 2 3) ">=" (.integerLiteral 0 2 9) 2 5,
       .binaryOp (.identifier "value" 3 3) "<=" (.integerLiteral 9 3 9) 3 5], 1, 1⟩
    []
    [.binaryOp (.identifier "value" 2 3) ">=" (.integerLiteral 0 2 9) 2 5]
    []
    (.binaryOp (.identifier "value" 3 3) "<=" (.integerLiteral 9 3 9) 3 5)
    rfl
  exact ⟨h.1.trans (by rfl), h.2.trans (by rfl)⟩

theorem scan_assumptions_append_of_ne (v op2 : String) (q : ℚ) :
    ∀ (bs rest : List SymbolicBound), (∀ b ∈ bs, b.var ≠ v) →
      scan_assumptions v op2 q (bs ++ rest) = scan_assumptions v op2 q rest := by
  intro bs
  induction bs with
  | nil => intro rest _; rfl
  | cons b bs ih =>
    intro rest h
    have hb : (b.var == v) = false := beq_eq_false_iff_ne.mpr (h b (by simp))
    simp only [List.cons_append, scan_assumptions, hb, Bool.false_eq_true, if_false]
    exact ih rest (fun b' hb' => h b' (by simp [hb']))

theorem implies_self (op2 : String) (q : ℚ)
    (hop : op2 = ">=" ∨ op2 = ">" ∨ op2 = "<=" ∨ op2 = "<" ∨ op2 = "==") :
    implies op2 q op2 q = some true := by
  rcases hop with rfl | rfl | rfl | rfl | rfl <;> simp [implies]

/-- C1 (counterexample). The claim says a postcondition structurally
identical to a precondition is reported `PROVEN`; but for the function with
precondition and postcondition both the very same AST `x > y` the verifier
reports the postcondition `UNPROVEN`, because bound extraction only handles
`identifier OP literal` shapes and so learns nothing from `x > y`. -/
theorem c1_counterexample :
    verify progC1 =
      [⟨"f", "precondition", .unproven, "Precondition could not be statically verified", 2, 12⟩,
       ⟨"f", "postcondition", .unproven, "Postcondition could not be statically verified", 2, 12⟩] := by
  rfl

/-- C1 (amended). If some precondition has the bound-extractable shape
`v OP c` with `OP ∈ {>=, >, <=, <, ==}` (`v` an identifier, `c` an integer
or float literal), no earlier precondition contributes a bound on `v`, and
a postcondition is structurally identical to it (same variable, operator
and constant, any positions), then the verifier reports that postcondition
`PROVEN`. -/
theorem c1_amended (fd : FunctionDeclaration) (pres1 pres2 posts1 posts2 : List Expression)
    (v op2 : String) (q : ℚ) (lit1 lit2 : Expression) (l1 c1 il1 ic1 l2 c2 il2 ic2 : Nat)
    (hop : op2 = ">=" ∨ op2 = ">" ∨ op2 = "<=" ∨ op2 = "<" ∨ op2 = "==")
    (hlit1 : (∃ i li ci, lit1 = .integerLiteral i li ci ∧ ((i : ℚ)) = q)
           ∨ (∃ x li ci, lit1 = .floatLiteral x li ci ∧ x = q))
    (hlit2 : (∃ i li ci, lit2 = .integerLiteral i li ci ∧ ((i : ℚ)) = q)
           ∨ (∃ x li ci, lit2 = .floatLiteral x li ci ∧ x = q))
    (hpre : fd.preconditions =
      pres1 ++ (.binaryOp (.identifier v il1 ic1) op2 lit1 l1 c1) :: pres2)
    (hpost : fd.postconditions =
      posts1 ++ (.binaryOp (.identifier v il2 ic2) op2 lit2 l2 c2) :: posts2)
    (hfirst : ∀ b ∈ pres1.flatMap extract_bounds, b.var ≠ v) :
    (verify_function fd [])[fd.preconditions.length + posts1.length]? =
      some ⟨fd.name, "postcondition", .proven, "Postcondition is trivially true", l2, c2⟩ := by
  have hbound : extract_bounds (.binaryOp (.identifier v il1 ic1) op2 lit1 l1 c1) =
      [⟨v, op2, q⟩] := by
    rcases hop with rfl | rfl | rfl | rfl | rfl <;>
      rcases hlit1 with ⟨i, li, ci, rfl, h⟩ | ⟨x, li, ci, rfl, h⟩ <;>
        simp [extract_bounds, extract_single_bound, flip_op, h]
  have heval : ∃ cv, try_eval_constant lit2 = some cv ∧ cv.toQ = q := by
    rcases hlit2 with ⟨i, li, ci, rfl, h⟩ | ⟨x, li, ci, rfl, h⟩
    · exact ⟨.int i, rfl, h⟩
    · exact ⟨.float x, rfl, h⟩
  have hne : structurally_equal (.identifier v il2 ic2) lit2 = false := by
    rcases hlit2 with ⟨i, li, ci, rfl, _⟩ | ⟨x, li, ci, rfl, _⟩ <;> rfl
  have hscan : scan_assumptions v op2 q (fd.preconditions.flatMap extract_bounds) = some true := by
    rw [hpre, List.flatMap_append, List.flatMap_cons, hbound,
      scan_assumptions_append_of_ne v op2 q _ _ hfirst]
    simp only [List.cons_append, scan_assumptions, beq_self_eq_true, if_true,
      implies_self op2 q hop]
  have htruth : check_truth (fd.preconditions.flatMap extract_bounds)
      (.binaryOp (.identifier v il2 ic2) op2 lit2 l2 c2) = some true := by
    obtain ⟨cv, hcv, hq⟩ := heval
    have hconst : try_eval_constant (.binaryOp (.identifier v il2 ic2) op2 lit2 l2 c2) = none := by
      simp [try_eval_constant, hcv]
    rcases hop with rfl | rfl | rfl | rfl | rfl <;>
      simp [check_truth, hconst, check_comparison, check_comparison_rest,
        check_var_const, hne, hcv, hq, hscan]
  rw [verify_function_eq fd []]
  rw [List.nil_append, List.getElem?_append_right (by simp), hpost]
  simp only [List.length_map, Nat.add_sub_cancel_left, List.map_append, List.map_cons]
  rw [List.getElem?_append_right (by simp), List.length_map, Nat.sub_self]
  simp only [List.getElem?_cons_zero, check_contract, htruth]
  rfl

/-- Witness for the amended C1: `h` has precondition and postcondition both
`x >= 5`; the postcondition is reported `PROVEN`. -/
theorem c1_amended_witness :
    (verify_function fdW1 [])[1]? =
      some ⟨"h", "postcondition", .proven, "Postcondition is trivially true", 3, 12⟩ := by
  have h := c1_amended fdW1 [] [] [] [] "x" ">=" (5 : ℚ)
    (.integerLiteral 5 2 15) (.integerLiteral 5 3 15) 2 12 2 10 3 12 3 10
    (Or.inl rfl)
    (Or.inl ⟨5, 2, 15, rfl, by norm_num⟩)
    (Or.inl ⟨5, 3, 15, rfl, by norm_num⟩)
    rfl rfl (by simp)
  exact h.trans (by rfl)

/-- C2 (counterexample). The claim says a comparison whose two operands are
the same expression is decided by reflexivity; but `_structurally_equal` is
shallow, so for the precondition `(a + b) != (a + b)` — the same compound
expression on both sides — the verifier reports `UNPROVEN`, not the claimed
`VIOLATED`. -/
theorem c2_counterexample :
    verify progC2 =
      [⟨"g", "precondition", .unproven, "Precondition could not be statically verified", 2, 13⟩] := by
  rfl

/-- Inversion of the shallow structural equality: it only ever holds between
two identifiers with the same name or two literals of the same kind with
the same value. -/
theorem structurally_equal_char (a b : Expression) (h : structurally_equal a b = true) :
    (∃ n l1 c1 l2 c2, a = .identifier n l1 c1 ∧ b = .identifier n l2 c2) ∨
    (∃ v l1 c1 l2 c2, a = .integerLiteral v l1 c1 ∧ b = .integerLiteral v l2 c2) ∨
    (∃ x l1 c1 l2 c2, a = .floatLiteral x l1 c1 ∧ b = .floatLiteral x l2 c2) ∨
    (∃ bb l1 c1 l2 c2, a = .boolLiteral bb l1 c1 ∧ b = .boolLiteral bb l2 c2) ∨
    (∃ s l1 c1 l2 c2, a = .stringLiteral s l1 c1 ∧ b = .stringLiteral s l2 c2) := by
  cases a <;> cases b <;> simp_all [structurally_equal]

/-- C2 (amended). For a comparison clause whose operands are structurally
equal in the shallow sense of the source (same identifier name, or same
literal kind and value — not arbitrary equal expressions), the verifier
reports `>=`, `<=`, `==` as `PROVEN` and `>`, `<`, `!=` as `VIOLATED`,
under any assumption set. -/
theorem c2_amended (assumptions : List SymbolicBound) (a b : Expression) (op2 : String)
    (l c : Nat) (name ctype : String) (heq : structurally_equal a b = true) :
    ((op2 = ">=" ∨ op2 = "<=" ∨ op2 = "==") →
      (check_contract assumptions (.binaryOp a op2 b l c) name ctype).status = .proven)
    ∧ ((op2 = ">" ∨ op2 = "<" ∨ op2 = "!=") →
      (check_contract assumptions (.binaryOp a op2 b l c) name ctype).status = .violated) := by
  rcases structurally_equal_char a b heq with
    ⟨n, l1, c1, l2, c2, rfl, rfl⟩ | ⟨v, l1, c1, l2, c2, rfl, rfl⟩ |
    ⟨x, l1, c1, l2, c2, rfl, rfl⟩ | ⟨bb, l1, c1, l2, c2, rfl, rfl⟩ |
    ⟨s, l1, c1, l2, c2, rfl, rfl⟩ <;>
  · constructor <;> (intro hop; rcases hop with rfl | rfl | rfl) <;>
      simp [check_contract, check_truth, try_eval_constant, eval_binary, check_comparison,
        ConstVal.truthy, ConstVal.toQ, ConstVal.isFloat, structurally_equal, le_refl,
        lt_irrefl]

/-- Witness for the amended C2 at `x >= x` and `x != x`. -/
theorem c2_amended_witness :
    (check_contract [] (.binaryOp (.identifier "x" 1 1) ">=" (.identifier "x" 1 6) 1 3)
      "f" "precondition").status = .proven
    ∧ (check_contract [] (.binaryOp (.identifier "x" 1 1) "!=" (.identifier "x" 1 6) 1 3)
      "f" "precondition").status = .violated :=
  ⟨(c2_amended [] (.identifier "x" 1 1) (.identifier "x" 1 6) ">=" 1 3 "f" "precondition"
      (by rfl)).1 (Or.inl rfl),
   (c2_amended [] (.identifier "x" 1 1) (.identifier "x" 1 6) "!=" 1 3 "f" "precondition"
      (by rfl)).2 (Or.inr (Or.inr rfl))⟩

/-- C3 (counterexample). The claim says `%` on two integer literals folds to
the exact result; but at `5 % 0` the optimizer raises an uncaught
`ZeroDivisionError` (unlike `/`, whose zero case is guarded), so the claim
fails there: nothing is folded and the expression is not preserved either. -/
theorem c3_counterexample :
    (optimize_expr 3 (.binaryOp (.integerLiteral 5 1 1) "%" (.integerLiteral 0 1 5) 1 3)).run 0 =
      .error .zeroDivisionError := by
  rfl

/-- Reduction of the optimizer on a `BinaryOp` of two integer literals to
`_fold_int` followed by `_try_simplify_identity`. -/
theorem optimize_binary_int_lits (fuel : Nat) (lv rv : Int) (op2 : String)
    (n l c ll lc rl rc : Nat) :
    (optimize_expr (fuel + 3)
        (.binaryOp (.integerLiteral lv ll lc) op2 (.integerLiteral rv rl rc) l c)).run n =
      match fold_int lv op2 rv l c with
      | .outOfFuel => .outOfFuel
      | .error e => .error e
      | .ok (some f) => .ok (f, n + 1)
      | .ok none =>
        match try_simplify_identity (.integerLiteral lv ll lc) op2 (.integerLiteral rv rl rc)
            l c with
        | some s => .ok (s, n + 1)
        | none =>
          .ok (.binaryOp (.integerLiteral lv ll lc) op2 (.integerLiteral rv rl rc) l c, n) := by
  cases h : fold_int lv op2 rv l c with
  | outOfFuel => simp [optimize_expr, optimize_binary, try_fold_binary, h, StateT.run,
      Bind.bind, StateT.bind, StateT.lift, Fueled.bind, Pure.pure, StateT.pure,
      liftM, monadLift, MonadLiftT.monadLift, MonadLift.monadLift]
  | error e => simp [optimize_expr, optimize_binary, try_fold_binary, h, StateT.run,
      Bind.bind, StateT.bind, StateT.lift, Fueled.bind, Pure.pure, StateT.pure,
      liftM, monadLift, MonadLiftT.monadLift, MonadLift.monadLift]
  | ok o =>
    cases o with
    | some f => simp [optimize_expr, optimize_binary, try_fold_binary, h, StateT.run,
        Bind.bind, StateT.bind, StateT.lift, Fueled.bind, Pure.pure, StateT.pure,
        count_optimization, liftM, monadLift, MonadLiftT.monadLift, MonadLift.monadLift]
    | none =>
      cases hs : try_simplify_identity (.integerLiteral lv ll lc) op2
          (.integerLiteral rv rl rc) l c with
      | some s => simp [optimize_expr, optimize_binary, try_fold_binary, h, hs, StateT.run,
          Bind.bind, StateT.bind, StateT.lift, Fueled.bind, Pure.pure, StateT.pure,
          count_optimization, liftM, monadLift, MonadLiftT.monadLift, MonadLift.monadLift]
      | none => simp [optimize_expr, optimize_binary, try_fold_binary, h, hs, StateT.run,
          Bind.bind, StateT.bind, StateT.lift, Fueled.bind, Pure.pure, StateT.pure,
          liftM, monadLift, MonadLiftT.monadLift, MonadLift.monadLift]

/-- C3 (amended). On a `BinaryOp` of two integer literals the optimizer
folds `+ - *` to the exact result and `%` with a nonzero right operand to
Python's sign-of-divisor remainder; `%` by zero raises an uncaught
`ZeroDivisionError` (the expression is not preserved); `/` folds to an
integer literal when the divisor divides the dividend and to a float
literal of the exact quotient otherwise, and `/` by zero is not folded —
the `BinaryOp` is returned unchanged with the counter untouched. -/
theorem c3_amended (fuel : Nat) (lv rv : Int) (op2 : String) (n l c ll lc rl rc : Nat) :
    (op2 = "+" →
      (optimize_expr (fuel + 3)
          (.binaryOp (.integerLiteral lv ll lc) op2 (.integerLiteral rv rl rc) l c)).run n =
        .ok (.integerLiteral (lv + rv) l c, n + 1))
    ∧ (op2 = "-" →
      (optimize_expr (fuel + 3)
          (.binaryOp (.integerLiteral lv ll lc) op2 (.integerLiteral rv rl rc) l c)).run n =
        .ok (.integerLiteral (lv - rv) l c, n + 1))
    ∧ (op2 = "*" →
      (optimize_expr (fuel + 3)
          (.binaryOp (.integerLiteral lv ll lc) op2 (.integerLiteral rv rl rc) l c)).run n =
        .ok (.integerLiteral (lv * rv) l c, n + 1))
    ∧ (op2 = "%" → rv ≠ 0 →
      (optimize_expr (fuel + 3)
          (.binaryOp (.integerLiteral lv ll lc) op2 (.integerLiteral rv rl rc) l c)).run n =
        .ok (.integerLiteral (Int.fmod lv rv) l c, n + 1))
    ∧ (op2 = "%" → rv = 0 →
      (optimize_expr (fuel + 3)
          (.binaryOp (.integerLiteral lv ll lc) op2 (.integerLiteral rv rl rc) l c)).run n =
        .error .zeroDivisionError)
    ∧ (op2 = "/" → rv ≠ 0 → rv ∣ lv →
      (optimize_expr (fuel + 3)
          (.binaryOp (.integerLiteral lv ll lc) op2 (.integerLiteral rv rl rc) l c)).run n =
        .ok (.integerLiteral (lv / rv) l c, n + 1))
    ∧ (op2 = "/" → rv ≠ 0 → ¬ rv ∣ lv →
      (optimize_expr (fuel + 3)
          (.binaryOp (.integerLiteral lv ll lc) op2 (.integerLiteral rv rl rc) l c)).run n =
        .ok (.floatLiteral ((lv : ℚ) / (rv : ℚ)) l c, n + 1))
    ∧ (op2 = "/" → rv = 0 →
      (optimize_expr (fuel + 3)
          (.binaryOp (.integerLiteral lv ll lc) op2 (.integerLiteral rv rl rc) l c)).run n =
        .ok (.binaryOp (.integerLiteral lv ll lc) op2 (.integerLiteral rv rl rc) l c, n)) := by
  refine ⟨?_, ?_, ?_, ?_, ?_, ?_, ?_, ?_⟩
  · rintro rfl
    rw [optimize_binary_int_lits]
    rfl
  · rintro rfl
    rw [optimize_binary_int_lits]
    rfl
  · rintro rfl
    rw [optimize_binary_int_lits]
    rfl
  · rintro rfl hrv
    rw [optimize_binary_int_lits]
    simp [fold_int, beq_eq_false_iff_ne.mpr hrv]
  · rintro rfl rfl
    rw [optimize_binary_int_lits]
    rfl
  · rintro rfl hrv hdvd
    rw [optimize_binary_int_lits]
    obtain ⟨k, rfl⟩ := hdvd
    have hrq : ((rv : ℚ)) ≠ 0 := Int.cast_ne_zero.mpr hrv
    have hq : (rv : ℚ) * (k : ℚ) / (rv : ℚ) = ((k : Int) : ℚ) := mul_div_cancel_left₀ _ hrq
    simp [fold_int, beq_eq_false_iff_ne.mpr hrv, hq, Rat.den_intCast, Rat.num_intCast,
      Int.mul_ediv_cancel_left k hrv, Int.cast_mul]
  · rintro rfl hrv hdvd
    rw [optimize_binary_int_lits]
    have hrq : ((rv : ℚ)) ≠ 0 := Int.cast_ne_zero.mpr hrv
    have hden : ((lv : ℚ) / (rv : ℚ)).den ≠ 1 := by
      intro hd
      apply hdvd
      have hnum : (((((lv : ℚ) / (rv : ℚ)).num : Int)) : ℚ) = (lv : ℚ) / (rv : ℚ) :=
        (Rat.den_eq_one_iff _).mp hd
      have : (((lv : ℚ) / (rv : ℚ)).num : ℚ) * (rv : ℚ) = (lv : ℚ) := by
        rw [hnum]
        exact div_mul_cancel₀ _ hrq
      refine ⟨((lv : ℚ) / (rv : ℚ)).num, ?_⟩
      have := this
      push_cast at this
      exact_mod_cast (by linarith : (lv : ℚ) = (rv : ℚ) * (((lv : ℚ) / (rv : ℚ)).num : ℚ))
    simp [fold_int, beq_eq_false_iff_ne.mpr hrv, beq_eq_false_iff_ne.mpr hden]
  · rintro rfl rfl
    rw [optimize_binary_int_lits]
    rfl

/-- Witness for the amended C3: `2 + 3` folds to the literal `5`, counting
one optimization. -/
theorem c3_amended_witness :
    (optimize_expr 4 (.binaryOp (.integerLiteral 2 1 1) "+" (.integerLiteral 3 1 5) 1 3)).run 0 =
      .ok (.integerLiteral 5 1 3, 1) :=
  (c3_amended 1 2 3 "+" 0 1 3 1 1 1 5).1 rfl

/-- C4 (counterexample). The claim says every line whose leading whitespace
is an odd number of spaces makes `tokenize` raise; but the blank-line check
runs before the odd-count check, so the input consisting of one blank line
with three leading spaces tokenizes successfully. -/
theorem c4_counterexample : tokenize "   \n" = .ok [⟨.EOF, "", 2, 1, 0⟩] := by
  rfl

theorem count_spaces_replicate (rest : List Char)
    (h : ∀ ch ∈ rest.head?, ch ≠ ' ') :
    ∀ n : Nat, count_spaces (List.replicate n ' ' ++ rest) = (n, rest) := by
  intro n
  induction n with
  | zero =>
    cases rest with
    | nil => rfl
    | cons ch cs =>
      have : (ch == ' ') = false := beq_eq_false_iff_ne.mpr (h ch rfl)
      simp [count_spaces, this]
  | succ m ih => simp [List.replicate_succ, count_spaces, ih]

/-- C4 (amended). At every line start (any lexer state with
`at_line_start`), if the leading whitespace is an odd number of spaces and
the first character after it is neither a newline, a `#`, a space nor a tab
— including end of input — then `tokenize` raises the odd-indentation
`LexError`; odd-space lines that are blank or comment-only are skipped
instead (see the counterexample). -/
theorem c4_amended (fuel n line col : Nat) (rest : List Char) (stack : List Nat)
    (toks : List Token) (hodd : n % 2 = 1)
    (hhead : ∀ ch ∈ rest.head?, ch ≠ ' ' ∧ ch ≠ '\t' ∧ ch ≠ '\n' ∧ ch ≠ '#') :
    tokenize_loop (fuel + 1) (List.replicate n ' ' ++ rest) line col stack true toks =
      .error ⟨"Indentation must be multiple of 2 spaces at line " ++ toString line⟩ := by
  obtain ⟨m, rfl⟩ : ∃ m, n = m + 1 := by
    cases n with
    | zero => simp at hodd
    | succ m => exact ⟨m, rfl⟩
  have hcount := count_spaces_replicate rest (fun ch hch => (hhead ch hch).1) (m + 1)
  have hmod : ((m + 1) % 2 != 0) = true := by simp [hodd]
  cases rest with
  | nil =>
    simp only [List.replicate_succ, List.cons_append, List.append_nil] at hcount
    simp only [List.replicate_succ, List.cons_append, List.append_nil, tokenize_loop]
    rw [hcount]
    simp [hmod]
  | cons ch cs =>
    obtain ⟨-, h2, h3, h4⟩ := hhead ch rfl
    simp only [List.replicate_succ, List.cons_append] at hcount
    simp only [List.replicate_succ, List.cons_append, tokenize_loop]
    rw [hcount]
    simp [h2, h3, h4, hmod]

/-- Witness for the amended C4: a three-space indent followed by `x` is a
lex error, from any starting line. -/
theorem c4_amended_witness :
    tokenize_loop 1 (List.replicate 3 ' ' ++ ['x']) 1 1 [0] true [] =
      .error ⟨"Indentation must be multiple of 2 spaces at line 1"⟩ :=
  c4_amended 0 3 1 1 ['x'] [0] [] rfl (by decide)

/-- The compatibility check `_types_compatible("A", "Int")` never returns,
for any recursion budget, once `type A = A` has bound `A → "A"`: each step
re-resolves the alias to itself. -/
theorem types_compatible_stC5 : ∀ fuel : Nat, types_compatible fuel stC5 "A" "Int" = none := by
  intro fuel
  induction fuel with
  | zero => rfl
  | succ f ih =>
    simp only [stC5] at ih
    simp [types_compatible, stC5, Dict.contains, Dict.get, ih]

/-- C5. `TypeChecker.check` does not terminate on the program
`type A = A` followed by `define f() -> Int` whose body's last expression
has type `A`: for every recursion budget the fueled embedding fails to
return, because `_types_compatible` re-resolves the cyclic alias without
bound. -/
theorem c5_cyclic_alias_divergence : ∀ fuel : Nat, check fuel progC5 = none := by
  intro fuel
  match fuel with
  | 0 => rfl
  | 1 => rfl
  | 2 => rfl
  | 3 => rfl
  | n + 4 =>
    have h := types_compatible_stC5 (n + 4)
    have key : check (n + 4) progC5 =
        (((match types_compatible (n + 4) stC5 "A" "Int" with
           | none => (TCM.noFuel : TCM Unit)
           | some compat =>
             if !compat then
               tc_error "Function 'f' body type A does not match return type Int" 2 1
             else pure ()) >>= fun _ => (pure () : TCM Unit)).run stC5).bind
          (fun p => some p.2.errors) := rfl
    rw [key, h]
    rfl

/-- C8. For a `BinaryOp` with operator `< > <= >=` the type checker infers
`"Bool"`, and it appends a type error exactly when neither operand's
inferred type is `"Unknown"` and the operand types are not both numeric
(`"Int"` or `"Float"`). -/
theorem c8_comparison_typing (fuel : Nat) (l r : Expression) (op2 : String) (line col : Nat)
    (env : Dict String) (st st1 st2 : TCState) (lt rt : String)
    (hop : op2 = "<" ∨ op2 = ">" ∨ op2 = "<=" ∨ op2 = ">=")
    (hl : (infer_type fuel l env).run st = some (lt, st1))
    (hr : (infer_type fuel r env).run st1 = some (rt, st2)) :
    (infer_type (fuel + 2) (.binaryOp l op2 r line col) env).run st =
      some ("Bool",
        if lt ≠ "Unknown" ∧ rt ≠ "Unknown"
            ∧ ¬((lt = "Int" ∨ lt = "Float") ∧ (rt = "Int" ∨ rt = "Float")) then
          { st2 with errors := st2.errors ++
              [⟨"Cannot apply '" ++ op2 ++ "' to " ++ lt ++ " and " ++ rt, line, col⟩] }
        else st2) := by
  simp only [StateT.run] at hl hr
  rcases hop with rfl | rfl | rfl | rfl <;>
  · simp only [infer_type, infer_binary_op, StateT.run, Bind.bind, StateT.bind, hl, hr,
      Option.bind_some, Option.some_bind]
    by_cases h1 : lt = "Unknown"
    · simp [h1, tc_error, Pure.pure, StateT.pure]
    · by_cases h2 : rt = "Unknown"
      · simp [h1, h2, tc_error, Pure.pure, StateT.pure]
      · by_cases h3 : (lt = "Int" ∨ lt = "Float") ∧ (rt = "Int" ∨ rt = "Float")
        · simp [h1, h2, h3, tc_error, Pure.pure, StateT.pure, StateT.bind, Bind.bind]
        · simp [h1, h2, h3, tc_error, Pure.pure, StateT.pure, StateT.bind, Bind.bind]

/-- Witness for C8 at `1 < "a"`: result type `Bool` with one recorded
error. -/
theorem c8_comparison_typing_witness :
    (infer_type 3 (.binaryOp (.integerLiteral 1 1 1) "<" (.stringLiteral "a" 1 5) 1 3)
        Dict.empty).run ⟨Dict.empty, Dict.empty, Dict.empty, []⟩ =
      some ("Bool", ⟨Dict.empty, Dict.empty, Dict.empty,
        [⟨"Cannot apply '<' to Int and String", 1, 3⟩]⟩) := by
  have h := c8_comparison_typing 1 (.integerLiteral 1 1 1) (.stringLiteral "a" 1 5) "<" 1 3
    Dict.empty ⟨Dict.empty, Dict.empty, Dict.empty, []⟩ ⟨Dict.empty, Dict.empty, Dict.empty, []⟩
    ⟨Dict.empty, Dict.empty, Dict.empty, []⟩ "Int" "String" (Or.inl rfl) rfl rfl
  exact h.trans (by simp)

/-- C10. A `when` whose condition is the boolean literal `false` and whose
else-block is absent is replaced by the placeholder integer literal `0`
(carrying the `when`'s position), and the rewrite itself counts exactly one
applied optimization on top of whatever the optimization of the (dead)
then-block counted. -/
theorem c10_when_false_no_else (fuel cl cc l c n : Nat) (tb : Block) :
    (optimize_expr (fuel + 3)
        (.whenExpression (.boolLiteral false cl cc) tb none l c)).run n =
      Fueled.bind ((optimize_block (fuel + 1) tb).run n)
        (fun p => .ok (.integerLiteral 0 l c, p.2 + 1)) := by
  rfl

/-- The three mutually recursive body emitters agree with the spec-side
line lists: each appends exactly the computed lines at the current indent
and leaves the indent level unchanged. -/
theorem cg_spec_mutual :
    ∀ (fuel : Nat),
      (∀ (b : Block) (st : CGState),
        gen_block_body fuel b st =
          (spec_block_lines fuel st.indent_level b).map
            (fun ls => { st with output_lines := st.output_lines ++ ls }))
      ∧ (∀ (stmts : List Statement) (st : CGState),
        gen_stmts_loop fuel stmts st =
          (spec_stmts_lines fuel st.indent_level stmts).map
            (fun ls => { st with output_lines := st.output_lines ++ ls }))
      ∧ (∀ (stmt : Statement) (is_last : Bool) (st : CGState),
        gen_statement fuel stmt is_last st =
          (spec_stmt_lines fuel st.indent_level stmt is_last).map
            (fun ls => { st with output_lines := st.output_lines ++ ls })) := by
  intro fuel
  induction fuel with
  | zero =>
    refine ⟨fun b st => ?_, fun stmts st => ?_, fun stmt is_last st => ?_⟩ <;>
      simp [gen_block_body, gen_stmts_loop, gen_statement,
        spec_block_lines, spec_stmts_lines, spec_stmt_lines]
  | succ fuel ih =>
    obtain ⟨ihB, ihS, ihT⟩ := ih
    refine ⟨fun b st => ?_, fun stmts st => ?_, fun stmt is_last st => ?_⟩
    · cases b with
      | mk stmts l c =>
        simp only [gen_block_body, spec_block_lines]
        split
        · simp [cg_emit]
        · exact ihS stmts st
    · cases stmts with
      | nil => simp [gen_stmts_loop, spec_stmts_lines]
      | cons stmt rest =>
        cases h1 : spec_stmt_lines fuel st.indent_level stmt rest.isEmpty with
        | none => simp [gen_stmts_loop, spec_stmts_lines, ihT, h1]
        | some first =>
          simp only [gen_stmts_loop, spec_stmts_lines, ihT, h1, Option.map_some',
            bind, Option.bind]
          rw [ihS]
          cases h2 : spec_stmts_lines fuel st.indent_level rest with
          | none => simp [h2]
          | some more => simp [h2, List.append_assoc]
    · cases stmt with
      | letBinding name ty value l c =>
        simp only [gen_statement, spec_stmt_lines]
        cases hv : gen_expr fuel value with
        | none => simp
        | some vs => simp [cg_emit]
      | assignment target value l c =>
        simp only [gen_statement, spec_stmt_lines]
        cases hv : gen_expr fuel value with
        | none => simp
        | some vs => simp [cg_emit]
      | expressionStatement e l c =>
        simp only [gen_statement, spec_stmt_lines]
        cases hv : gen_expr fuel e with
        | none => simp
        | some es =>
          cases is_last <;> simp [cg_emit, List.append_assoc]
      | blockStmt b =>
        simp only [gen_statement, spec_stmt_lines]
        exact ihB b st

/-- `_gen_block_body` produces exactly the spec-side body lines. -/
theorem gen_block_body_eq (fuel : Nat) (b : Block) (st : CGState) :
    gen_block_body fuel b st =
      (spec_block_lines fuel st.indent_level b).map
        (fun ls => { st with output_lines := st.output_lines ++ ls }) :=
  (cg_spec_mutual fuel).1 b st

/-- The precondition loop of `_gen_function_declaration` appends exactly
the comment/assert pairs of `spec_expect_lines`, one pair per clause. -/
theorem gen_expect_fold (fuel : Nat) :
    ∀ (exprs : List Expression) (st : CGState),
      exprs.foldlM (fun st pre => do
        let pre_code ← gen_expr fuel pre
        let st := cg_emit ("# expect: " ++ pre_code) st
        pure (cg_emit ("assert " ++ pre_code ++ ", \"Precondition failed: " ++ pre_code ++ "\"") st)) st
      = (exprs.mapM (spec_expect_lines fuel st.indent_level)).map
          (fun lss => { st with output_lines := st.output_lines ++ lss.flatten }) := by
  intro exprs
  induction exprs with
  | nil => intro st; rw [List.foldlM_nil, List.mapM_nil]; simp
  | cons e es ih =>
    intro st
    rw [List.foldlM_cons, List.mapM_cons]
    simp only [ih]
    cases hv : gen_expr fuel e with
    | none => simp [spec_expect_lines, hv]
    | some code =>
      cases hm : es.mapM (spec_expect_lines fuel st.indent_level) with
      | none =>
        simp [spec_expect_lines, hv, hm, cg_emit]
        exact hm
      | some lss =>
        simp [spec_expect_lines, hv, hm, cg_emit, List.append_assoc]
        exact ⟨lss, hm, rfl⟩

/-- The postcondition loop of `_gen_function_declaration` appends exactly
the comment/assert pairs of `spec_ensure_lines`, one pair per clause. -/
theorem gen_ensure_fold (fuel : Nat) :
    ∀ (exprs : List Expression) (st : CGState),
      exprs.foldlM (fun st post => do
        let post_code ← gen_expr fuel post
        let st := cg_emit ("# ensure: " ++ post_code) st
        pure (cg_emit ("assert " ++ post_code ++ ", \"Postcondition failed: " ++ post_code ++ "\"") st)) st
      = (exprs.mapM (spec_ensure_lines fuel st.indent_level)).map
          (fun lss => { st with output_lines := st.output_lines ++ lss.flatten }) := by
  intro exprs
  induction exprs with
  | nil => intro st; rw [List.foldlM_nil, List.mapM_nil]; simp
  | cons e es ih =>
    intro st
    rw [List.foldlM_cons, List.mapM_cons]
    simp only [ih]
    cases hv : gen_expr fuel e with
    | none => simp [spec_ensure_lines, hv]
    | some code =>
      cases hm : es.mapM (spec_ensure_lines fuel st.indent_level) with
      | none =>
        simp [spec_ensure_lines, hv, hm, cg_emit]
        exact hm
      | some lss =>
        simp [spec_ensure_lines, hv, hm, cg_emit, List.append_assoc]
        exact ⟨lss, hm, rfl⟩

/-- C9: for every function declaration, `_gen_function_declaration` emits, in
this order, the `def` line with the parameter names, a comment and an assert
per precondition, the lowered body (whose last `ExpressionStatement` becomes
`result = <expr>` / `return result`, and which is `pass` when empty, per
`spec_stmt_lines` and `spec_block_lines`), and a comment and an assert per
postcondition — all at one indent level deeper than the `def` line, with the
indent level restored afterwards. -/
theorem c9_function_layout (fuel : Nat) (fd : FunctionDeclaration) (st : CGState) :
    gen_function_declaration fuel fd st =
      (spec_function_layout fuel fd st.indent_level).map
        (fun ls => { st with output_lines := st.output_lines ++ ls }) := by
  unfold gen_function_declaration spec_function_layout
  simp only [gen_expect_fold, gen_ensure_fold, gen_block_body_eq]
  simp only [cg_emit]
  cases hpres : fd.preconditions.mapM (spec_expect_lines fuel (st.indent_level + 1)) with
  | none => simp [hpres]
  | some pres =>
    cases hbody : spec_block_lines fuel (st.indent_level + 1) fd.body with
    | none => simp [hpres, hbody]
    | some body =>
      cases hposts : fd.postconditions.mapM (spec_ensure_lines fuel (st.indent_level + 1)) with
      | none =>
        have h3 : List.mapM.loop (spec_ensure_lines fuel (st.indent_level + 1))
            fd.postconditions [] = none := hposts
        simp [hpres, hbody, hposts, h3]
      | some posts =>
        have h3 : List.mapM.loop (spec_ensure_lines fuel (st.indent_level + 1))
            fd.postconditions [] = some posts := hposts
        simp [hpres, hbody, hposts, h3, List.append_assoc]

end VL
